import Mathlib

/-!
# Clover bytecode runtime and compiler: a shallow embedding

This file embeds the parts of the OldClover repository that the verified
claims are about:

* the runtime `Stack` and `Address` classes of `src/Runtime/Interpreter.h`;
* the fetch/decode/dispatch loop of `Interpreter::execute`
  (`src/Runtime/Interpreter.cpp`);
* `Interpreter::init` (command lookup and start-up checks);
* the executable emitter `CompileEngine::emit`
  (`src/Compiler/CompileEngine.cpp`);
* the integer-literal rvalue baking of `CloverCompileEngine::bakeExpr`
  together with `findInt` / `findFloat`
  (`src/Compiler/CloverCompileEngine.cpp`).

Machine integers are modelled as `Nat` (unsigned) and `Int` (signed),
with explicit reductions mod 2^8 / 2^16 / 2^32 where the C++ types
truncate.  Host-supplied operations (IEEE-754 float arithmetic on 32-bit
bit patterns, the random number generator) are abstracted as parameters,
because no verified claim depends on their values.
-/

namespace Clover

/-- Reinterpret a 32-bit word as C++ `int16_t` (narrowing conversion:
the value is reduced mod 2^16 and the result read as two's complement). -/
def toInt16 (n : Nat) : Int :=
  let m := n % 65536
  if m < 32768 then (m : Int) else (m : Int) - 65536

/-- Reinterpret a 32-bit word as C++ `int32_t` (two's complement). -/
def toInt32 (n : Nat) : Int :=
  let m := n % 4294967296
  if m < 2147483648 then (m : Int) else (m : Int) - 4294967296

/-- Convert a signed value to C++ `uint32_t` (reduction mod 2^32). -/
def toUInt32 (i : Int) : Nat := (i % 4294967296).toNat

/-- Convert a signed value to C++ `uint16_t` (reduction mod 2^16). -/
def toUInt16 (i : Int) : Nat := (i % 65536).toNat

/-- Pointwise update of a memory modelled as a function. -/
def upd {α : Type} [DecidableEq α] (f : α → Nat) (a : α) (v : Nat) : α → Nat :=
  fun x => if x = a then v else f x

/-- Runtime error kinds, from `Interpreter::Error` in
`src/Runtime/Interpreter.h`. -/
inductive Error where
  | none
  | cmdNotFound
  | unexpectedOpInIf
  | invalidOp
  | onlyMemAddressesAllowed
  | addressOutOfRange
  | expectedSetFrame
  | invalidModuleOp
  | invalidNativeFunction
  | notEnoughArgs
  | wrongNumberOfArgs
  | stackOverrun
  | stackUnderrun
  | stackOutOfRange
  deriving DecidableEq, Repr

/-- `ConstStart` from `src/Runtime/Opcodes.h`. -/
def ConstStart : Nat := 0x00

/-- `GlobalStart` from `src/Runtime/Opcodes.h`. -/
def GlobalStart : Nat := 0x80

/-- `LocalStart` from `src/Runtime/Opcodes.h`. -/
def LocalStart : Nat := 0xc0

/-- `ConstOffset` from `src/Runtime/Interpreter.h` line 62:
`static constexpr uint16_t ConstOffset = 8;`. -/
def ConstOffset : Nat := 8

/-- The runtime `Address` of `src/Runtime/Interpreter.h`.  The C++ class
stores `Type _type` (an enum with underlying `uint8_t`:
`None = 0, Const = 1, Global = 2, LocalRel = 3, LocalAbs = 4`) and a
`uint8_t _addr`; we keep both as the raw numbers the C++ object holds. -/
structure Address where
  tag : Nat
  addr : Nat
  deriving DecidableEq, Repr

namespace Address

/-- `Address::fromId` (Interpreter.h lines 179-193): ids below
`GlobalStart` are ROM constants, ids below `LocalStart` are globals
(offset `id & 0x3f`), the rest are frame-relative locals.
`id & 0x3f` is written `id % 64`. -/
def fromId (id : Nat) : Address :=
  if id < GlobalStart then ⟨1, id⟩
  else if id < LocalStart then ⟨2, id % 64⟩
  else ⟨3, id % 64⟩

/-- `Address::fromVar` (Interpreter.h lines 195-201):
`_type = Type(v >> 8); _addr = uint8_t(v);` — the enum cast keeps the
value mod 2^8 because the underlying type is `uint8_t`. -/
def fromVar (v : Nat) : Address := ⟨(v / 256) % 256, v % 256⟩

/-- `Address::toVar` (Interpreter.h line 203):
`(uint32_t(_type) << 8) | _addr`; the two operands occupy disjoint bit
ranges for in-range fields, so this is the number below. -/
def toVar (a : Address) : Nat := a.tag * 256 + a.addr % 256

end Address

/-- The runtime stack of `Interpreter::Stack` (Interpreter.h lines
213-327).  `mem` models the backing `uint32_t` array as a total
function (C++ reads and writes out of range are undefined behaviour;
the model makes them total); `size`, `sp` and `bp` are the `int16_t`
members, and `err` the `mutable Error _error`. -/
structure Stack where
  mem : Int → Nat
  size : Int
  sp : Int
  bp : Int
  err : Error

namespace Stack

/-- `ensureCount` (Interpreter.h lines 279-285). -/
def ensureCount (s : Stack) (n : Nat) : Stack :=
  if s.sp < (n : Int) then { s with err := .stackUnderrun } else s

/-- `ensureRel` (Interpreter.h lines 287-294). -/
def ensureRel (s : Stack) (rel : Nat) : Stack :=
  let a := s.sp - rel - 1
  if a < 0 ∨ s.size ≤ a then { s with err := .stackOutOfRange } else s

/-- `ensureLocal` (Interpreter.h lines 296-303); the parameter is
`uint8_t`, so callers passing a wider value truncate it mod 2^8. -/
def ensureLocal (s : Stack) (i : Nat) : Stack :=
  let a := s.bp + (i % 256 : Nat)
  if a < 0 ∨ s.sp ≤ a then { s with err := .stackOutOfRange } else s

/-- `ensurePush` (Interpreter.h lines 305-311). -/
def ensurePush (s : Stack) : Stack :=
  if s.size ≤ s.sp then { s with err := .stackOverrun } else s

/-- The bound check of `get` (Interpreter.h lines 313-320); the C++
returns the reference regardless, so the model separates the check
(this function) from the access (`mem`). -/
def getCheck (s : Stack) (a : Int) : Stack :=
  if s.size ≤ a then { s with err := .stackOverrun } else s

/-- `push` (Interpreter.h line 229): `ensurePush(); _stack[_sp++] = v;`. -/
def push (s : Stack) (v : Nat) : Stack :=
  let s := s.ensurePush
  { s with mem := upd s.mem s.sp v, sp := s.sp + 1 }

/-- `pop` (Interpreter.h line 231):
`ensureCount(n); _sp -= n; return _stack[_sp];`. -/
def pop (s : Stack) (n : Nat := 1) : Stack × Nat :=
  let s := s.ensureCount n
  let s := { s with sp := s.sp - n }
  (s, s.mem s.sp)

/-- `swap` (Interpreter.h lines 233-239). -/
def swap (s : Stack) : Stack :=
  let s := s.ensureCount 2
  let a := s.mem (s.sp - 1)
  let b := s.mem (s.sp - 2)
  { s with mem := upd (upd s.mem (s.sp - 1) b) (s.sp - 2) a }

/-- Read through `top(rel)` (Interpreter.h lines 241-242). -/
def topGet (s : Stack) (rel : Nat := 0) : Stack × Nat :=
  let s := s.ensureRel rel
  (s, s.mem (s.sp - rel - 1))

/-- Write through `top()` (Interpreter.h line 242). -/
def topSet (s : Stack) (v : Nat) : Stack :=
  let s := s.ensureRel 0
  { s with mem := upd s.mem (s.sp - 1) v }

/-- Read through `local(addr)` (Interpreter.h lines 243-244):
`ensureLocal(addr); return get(addr + _bp);`. -/
def localGet (s : Stack) (addr : Nat) : Stack × Nat :=
  let s := s.ensureLocal addr
  let s := s.getCheck (s.bp + addr)
  (s, s.mem (s.bp + addr))

/-- Write through `local(addr)`. -/
def localSet (s : Stack) (addr : Nat) (v : Nat) : Stack :=
  let s := s.ensureLocal addr
  let s := s.getCheck (s.bp + addr)
  { s with mem := upd s.mem (s.bp + addr) v }

/-- Read through `abs(addr)` (Interpreter.h lines 245-246):
`ensureCount(addr); return get(addr);` — `ensureCount` takes `uint8_t`,
truncating the address for the check only. -/
def absGet (s : Stack) (addr : Nat) : Stack × Nat :=
  let s := s.ensureCount (addr % 256)
  let s := s.getCheck addr
  (s, s.mem addr)

/-- Write through `abs(addr)`. -/
def absSet (s : Stack) (addr : Nat) (v : Nat) : Stack :=
  let s := s.ensureCount (addr % 256)
  let s := s.getCheck addr
  { s with mem := upd s.mem addr v }

/-- `localToAbs` (Interpreter.h line 248):
`ensureLocal(addr); return addr + _bp;` as a `uint8_t` result.  The
error effect is irrelevant to its value, so only the value is modelled. -/
def localToAbs (s : Stack) (addr : Nat) : Nat := toUInt32 (s.bp + addr) % 256

/-- `empty` (Interpreter.h line 250). -/
def isEmpty (s : Stack) : Bool := s.sp = 0

/-- `setFrame` (Interpreter.h lines 253-266):
pop the just-pushed return pc (as `int16_t`), advance `sp` by `locals`,
push the saved pc and the previous `bp`, then set
`bp = sp - params - locals - 2`, failing with `NotEnoughArgs` when that
is negative. -/
def setFrame (s : Stack) (params locals : Nat) : Stack × Bool :=
  let r := s.pop 1
  let savedPC : Int := toInt16 r.2
  let s := { r.1 with sp := r.1.sp + (locals : Int) }
  let s := s.push (toUInt32 savedPC)
  let s := s.push (toUInt32 s.bp)
  let newBP := s.sp - (params : Int) - (locals : Int) - 2
  if newBP < 0 then
    ({ s with err := .notEnoughArgs }, false)
  else
    ({ s with bp := newBP }, true)

/-- `restoreFrame` (Interpreter.h lines 268-276). -/
def restoreFrame (s : Stack) (returnValue : Nat) : Stack × Int :=
  let r := s.pop 1
  let savedBP : Int := toInt16 r.2
  let r2 := r.1.pop 1
  let pc : Int := toInt16 r2.2
  let s := { r2.1 with sp := r2.1.bp, bp := savedBP }
  let s := s.push returnValue
  (s, pc)

end Stack

end Clover

namespace Clover

/-- Host and IEEE-754 operations abstracted as parameters.  Each field is
the bit-pattern-level function the C++ computes with `intToFloat` /
`floatToInt` / the host `random`; no verified claim depends on their
values, so they stay abstract. -/
structure HostOps where
  fadd : Nat → Nat → Nat
  fsub : Nat → Nat → Nat
  fmul : Nat → Nat → Nat
  fdiv : Nat → Nat → Nat
  fneg : Nat → Nat
  flt : Nat → Nat → Bool
  fle : Nat → Nat → Bool
  feq : Nat → Nat → Bool
  fne : Nat → Nat → Bool
  fge : Nat → Nat → Bool
  fgt : Nat → Nat → Bool
  finc : Nat → Nat
  fdec : Nat → Nat
  i2f : Nat → Nat
  f2i : Nat → Nat
  fmin : Nat → Nat → Nat
  fmax : Nat → Nat → Nat
  randInt : Int → Int → Int
  randFloat : Nat → Nat → Nat

/-- The interpreter state: the members of class `Interpreter`
(Interpreter.h lines 429-450) that the executed claims touch.  `rom` is
the host ROM fetch (`virtual uint8_t rom(uint16_t)`), total with a
`% 256` at each use reflecting its `uint8_t` return type. -/
structure VM where
  rom : Nat → Nat
  global : Nat → Nat
  stack : Stack
  pc : Int
  err : Error
  errAddr : Int
  params : Nat → Nat
  paramsSize : Nat
  codeOffset : Nat

namespace VM

/-- `getUInt8ROM(index)` (Interpreter.h lines 332-335) at an arbitrary
byte offset; the index is a `uint16_t` and the result a `uint8_t`. -/
def romB (vm : VM) (i : Nat) : Nat := vm.rom (i % 65536) % 256

/-- `getUInt8ROM(_pc++)`, shared by `getId` / `getConst` / `getSz`
(Interpreter.h lines 344-346). -/
def getByte (vm : VM) : VM × Nat :=
  ({ vm with pc := vm.pc + 1 }, vm.romB (toUInt16 vm.pc))

/-- The fetch/decode of `Interpreter::execute` (Interpreter.cpp lines
119-124): `if (cmd >= 0x80) { index = cmd & 0x0f; cmd &= 0xf0; }`. -/
def decode (b : Nat) : Nat × Nat :=
  if 0x80 ≤ b then (b &&& 0xf0, b &&& 0x0f) else (b, 0)

/-- `Interpreter::loadInt` (Interpreter.h lines 362-386).  The `Const`
case assembles a little-endian word from four ROM bytes with `|` and
shifts; the other cases read global memory or the stack, with the
stack's own checks. -/
def loadInt (vm : VM) (a : Address) (index : Nat) : VM × Nat :=
  match a.tag with
  | 1 =>
    let ad := ((a.addr + index) * 4 + ConstOffset) % 65536
    (vm, ((vm.romB ad ||| (vm.romB (ad + 1)) <<< 8) |||
          (vm.romB (ad + 2)) <<< 16) ||| (vm.romB (ad + 3)) <<< 24)
  | 2 => (vm, vm.global (a.addr + index))
  | 3 =>
    let r := vm.stack.localGet (a.addr + index)
    ({ vm with stack := r.1 }, r.2)
  | 4 =>
    let r := vm.stack.absGet (a.addr + index)
    ({ vm with stack := r.1 }, r.2)
  | _ => ({ vm with err := .addressOutOfRange }, 0)

/-- `Interpreter::storeInt` (Interpreter.h lines 394-420).  The `Const`
case is `return;` with no store and no error — the write is silently
discarded. -/
def storeInt (vm : VM) (a : Address) (index : Nat) (v : Nat) : VM :=
  match a.tag with
  | 1 => vm
  | 2 => { vm with global := upd vm.global (a.addr + index) v }
  | 3 => { vm with stack := vm.stack.localSet (a.addr + index) v }
  | 4 => { vm with stack := vm.stack.absSet (a.addr + index) v }
  | _ => { vm with err := .addressOutOfRange }

/-- The `value = _stack.pop(); _stack.top() = f(top, value)` pattern of
the binary integer opcodes (Interpreter.cpp lines 428-459), with the
result converted back to `uint32_t`. -/
def arithInt (vm : VM) (f : Int → Int → Int) : VM :=
  let p := vm.stack.pop 1
  let t := p.1.topGet 0
  { vm with stack := t.1.topSet (toUInt32 (f (toInt32 t.2) (toInt32 p.2))) }

/-- The comparison pattern (Interpreter.cpp lines 379-426): the 0/1
result of the C++ relational operator is stored into the top slot. -/
def cmpInt (vm : VM) (f : Int → Int → Bool) : VM :=
  let p := vm.stack.pop 1
  let t := p.1.topGet 0
  { vm with stack := t.1.topSet (if f (toInt32 t.2) (toInt32 p.2) then 1 else 0) }

/-- The bitwise `top op= pop` pattern (Interpreter.cpp lines 371-373). -/
def arithNat (vm : VM) (f : Nat → Nat → Nat) : VM :=
  let p := vm.stack.pop 1
  let t := p.1.topGet 0
  { vm with stack := t.1.topSet (f t.2 p.2) }

/-- Binary float opcodes (Interpreter.cpp lines 432-458) on bit
patterns. -/
def arithFloat (vm : VM) (f : Nat → Nat → Nat) : VM :=
  let p := vm.stack.pop 1
  let t := p.1.topGet 0
  { vm with stack := t.1.topSet (f t.2 p.2) }

/-- Float comparisons (Interpreter.cpp lines 383-425) on bit patterns. -/
def cmpFloat (vm : VM) (f : Nat → Nat → Bool) : VM :=
  let p := vm.stack.pop 1
  let t := p.1.topGet 0
  { vm with stack := t.1.topSet (if f t.2 p.2 then 1 else 0) }

/-- The integer pre/post increment/decrement opcodes (Interpreter.cpp
lines 467-477).  The popped word is narrowed to an 8-bit id and decoded
by `Address::fromId`, as the id-based revisions of this code do
(`PopDeref` likewise declares its popped address as `uint8_t`). -/
def incDecInt (vm : VM) (isInc isPre : Bool) : VM :=
  let p := vm.stack.pop 1
  let vm := { vm with stack := p.1 }
  let a := Address.fromId (p.2 % 256)
  let r := vm.loadInt a 0
  let vm := r.1
  let value := toInt32 r.2
  let after := if isInc then value + 1 else value - 1
  let vm := vm.storeInt a 0 (toUInt32 after)
  { vm with stack := vm.stack.push (toUInt32 (if isPre then after else value)) }

/-- The float pre/post increment/decrement opcodes (Interpreter.cpp
lines 478-488), on bit patterns. -/
def incDecFloat (hops : HostOps) (vm : VM) (isInc isPre : Bool) : VM :=
  let p := vm.stack.pop 1
  let vm := { vm with stack := p.1 }
  let a := Address.fromId (p.2 % 256)
  let r := vm.loadInt a 0
  let vm := r.1
  let value := r.2
  let after := if isInc then hops.finc value else hops.fdec value
  let vm := vm.storeInt a 0 after
  { vm with stack := vm.stack.push (if isPre then after else value) }

end VM

end Clover

namespace Clover

/-- Result of one iteration of the dispatch loop of
`Interpreter::execute`: either fall through to the next iteration or
return from `execute` with an `int32_t`. -/
inductive StepOut where
  | next (vm : VM)
  | ret (vm : VM) (val : Int)

/-- The interpreter state carried by a `StepOut`. -/
def StepOut.vm : StepOut → VM
  | .next v => v
  | .ret v _ => v

/-- `memset(p, v, n * sizeof(uint32_t))` sets each of the `4 * n` bytes
to `(unsigned char)v`; every affected 32-bit word therefore becomes the
low byte of `v` replicated four times. -/
def memsetWord (v : Nat) : Nat := (v % 256) * 16843009

/-- Word-level effect of `memset` on the global area (a `Nat`-indexed
word memory). -/
def memsetWords (f : Nat → Nat) (base n v : Nat) : Nat → Nat :=
  fun x => if base ≤ x ∧ x < base + n then memsetWord v else f x

/-- Word-level effect of `memset` on the stack (an `Int`-indexed word
memory). -/
def memsetWordsZ (f : Int → Nat) (base : Int) (n v : Nat) : Int → Nat :=
  fun x => if base ≤ x ∧ x < base + (n : Int) then memsetWord v else f x

namespace VM

/-- The `NativeFunction::InitArray` case of `Interpreter::execute`
(Interpreter.cpp lines 310-327): reads `(i, v, n)` from locals 0..2;
ids below `GlobalStart` raise `OnlyMemAddressesAllowed` and abort the
dispatch loop (the `Bool` is false); otherwise `memset` fills `n` words
of global memory at `i - GlobalStart`, or of the stack at
`local(i - LocalStart)`. -/
def nativeInitArray (vm : VM) : VM × Bool :=
  let r1 := vm.stack.localGet 0
  let r2 := r1.1.localGet 1
  let r3 := r2.1.localGet 2
  let i := r1.2
  let v := r2.2
  let n := r3.2
  let vm := { vm with stack := r3.1 }
  if i < GlobalStart then
    ({ vm with err := .onlyMemAddressesAllowed }, false)
  else if i < LocalStart then
    ({ vm with global := memsetWords vm.global (i - GlobalStart) n v }, true)
  else
    -- &_stack.local(i - LocalStart): local() takes a uint16_t and runs
    -- its checks once; the fill then covers n words from that slot.
    let off : Nat := (i - LocalStart) % 65536
    let s := vm.stack.ensureLocal off
    let s := s.getCheck (s.bp + off)
    ({ vm with stack := { s with mem := memsetWordsZ s.mem (s.bp + off) n v } }, true)

/-- `Interpreter::animate` (Interpreter.cpp lines 495-524) on float bit
patterns; the `uint32_t index` is decoded as an id by
`Address::fromId`.  `0 < inc` compares with `0.0f`, whose bit pattern
is 0. -/
def animate (hops : HostOps) (vm : VM) (index : Nat) : VM × Int :=
  let a := Address.fromId (index % 256)
  let r1 := vm.loadInt a 0
  let r2 := r1.1.loadInt a 1
  let r3 := r2.1.loadInt a 2
  let r4 := r3.1.loadInt a 3
  let cur := r1.2
  let inc := r2.2
  let mn := r3.2
  let mx := r4.2
  let vm := r4.1
  let cur := hops.fadd cur inc
  let vm := vm.storeInt a 0 cur
  if hops.flt 0 inc then
    if hops.fge cur mx then
      let vm := vm.storeInt a 0 mx
      let vm := vm.storeInt a 1 (hops.fneg inc)
      (vm, 1)
    else (vm, 0)
  else
    if hops.fle cur mn then
      let vm := vm.storeInt a 0 mn
      let vm := vm.storeInt a 1 (hops.fneg inc)
      (vm, -1)
    else (vm, 0)

/-- Modelled from the spec: the arly revision's `NativeFunction` enum is
not under src/; the ids follow spec §4.7 and `NativeCore.h`
(`Animate = 0, Param = 1, Float = 2, Int = 3, LogInt = 4, LogFloat = 5,
LogHex = 6, RandomInt = 7, RandomFloat = 8, InitArray = 9, MinInt = 0xa,
MinFloat = 0xb, MaxInt = 0xc, MaxFloat = 0xd`).  This is the `numParams`
switch of the `CallNative` case (Interpreter.cpp lines 232-252); ids with
no case leave the initial 0. -/
def nativeNumParams (id : Nat) : Nat :=
  match id with
  | 0 => 1  -- Animate
  | 1 => 1  -- Param
  | 2 => 1  -- Float
  | 3 => 1  -- Int
  | 4 => 1  -- LogInt
  | 5 => 1  -- LogFloat
  | 6 => 2  -- LogHex
  | 7 => 2  -- RandomInt
  | 8 => 2  -- RandomFloat
  | 9 => 3  -- InitArray
  | 10 => 2 -- MinInt
  | 11 => 2 -- MinFloat
  | 12 => 2 -- MaxInt
  | 13 => 2 -- MaxFloat
  | _ => 0

/-- The native-function body switch of the `CallNative` case
(Interpreter.cpp lines 258-340).  Returns the state, the `returnVal`
(as `uint32_t`) and whether dispatch continues (`InitArray` aborts with
`return -1` on a bad address).  The `Log*` natives only produce host
output.  `MinInt`..`MaxFloat` push their result directly and leave
`returnVal` 0, exactly as the source does. -/
def nativeBody (hops : HostOps) (vm : VM) (id : Nat) : VM × Nat × Bool :=
  match id with
  | 0 => -- Animate
    let r := vm.stack.localGet 0
    let vm := { vm with stack := r.1 }
    let p := vm.animate hops r.2
    (p.1, toUInt32 p.2, true)
  | 1 => -- Param
    let r := vm.stack.localGet 0
    ({ vm with stack := r.1 }, vm.params r.2 % 256, true)
  | 2 => -- Float
    let r := vm.stack.localGet 0
    ({ vm with stack := r.1 }, hops.i2f r.2, true)
  | 3 => -- Int
    let r := vm.stack.localGet 0
    ({ vm with stack := r.1 }, hops.f2i r.2, true)
  | 4 => -- LogInt: host output only
    let r := vm.stack.localGet 0
    ({ vm with stack := r.1 }, 0, true)
  | 5 => -- LogFloat: host output only
    let r := vm.stack.localGet 0
    ({ vm with stack := r.1 }, 0, true)
  | 6 => -- LogHex: reads local(0) twice in the source; host output only
    let r := vm.stack.localGet 0
    let r2 := r.1.localGet 0
    ({ vm with stack := r2.1 }, 0, true)
  | 7 => -- RandomInt
    let r := vm.stack.localGet 0
    let r2 := r.1.localGet 1
    ({ vm with stack := r2.1 },
      toUInt32 (hops.randInt (toInt32 r.2) (toInt32 r2.2)), true)
  | 8 => -- RandomFloat
    let r := vm.stack.localGet 0
    let r2 := r.1.localGet 1
    ({ vm with stack := r2.1 }, hops.randFloat r.2 r2.2, true)
  | 9 => -- InitArray
    let p := vm.nativeInitArray
    (p.1, 0, p.2)
  | 10 => -- MinInt: pushes its result, returnVal stays 0
    let r := vm.stack.localGet 0
    let r2 := r.1.localGet 1
    let s := r2.1.push (toUInt32 (min (toInt32 r.2) (toInt32 r2.2)))
    ({ vm with stack := s }, 0, true)
  | 11 => -- MinFloat
    let r := vm.stack.localGet 0
    let r2 := r.1.localGet 1
    let s := r2.1.push (hops.fmin r.2 r2.2)
    ({ vm with stack := s }, 0, true)
  | 12 => -- MaxInt
    let r := vm.stack.localGet 0
    let r2 := r.1.localGet 1
    let s := r2.1.push (toUInt32 (max (toInt32 r.2) (toInt32 r2.2)))
    ({ vm with stack := s }, 0, true)
  | 13 => -- MaxFloat
    let r := vm.stack.localGet 0
    let r2 := r.1.localGet 1
    let s := r2.1.push (hops.fmax r.2 r2.2)
    ({ vm with stack := s }, 0, true)
  | _ => (vm, 0, true)

end VM

end Clover

namespace Clover

namespace VM

/-- The opcode dispatch switch of `Interpreter::execute`
(Interpreter.cpp lines 132-489), after the fetch/decode: `cmd` is the
decoded op and `index` its inline nibble.  Opcode values are those of
`enum class Op` in `src/Runtime/Opcodes.h`; bytes with no `case` (among
them `Op::Log`, which the switch does not handle) fall to the
`InvalidOp` default. -/
def execOp (hops : HostOps) (vm : VM) (cmd index : Nat) : StepOut :=
  match cmd with
  | 0x10 => -- Push id
    let g := vm.getByte
    let vm := g.1
    let r := vm.loadInt (Address.fromId g.2) 0
    .next { r.1 with stack := r.1.stack.push r.2 }
  | 0x11 => -- Pop id
    let g := vm.getByte
    let vm := g.1
    let p := vm.stack.pop 1
    .next (({ vm with stack := p.1 } : VM).storeInt (Address.fromId g.2) 0 p.2)
  | 0x12 => -- PushIntConst
    let g := vm.getByte
    let vm := g.1
    .next { vm with stack := vm.stack.push g.2 }
  | 0x13 => -- PushRef: pushes the raw id byte
    let g := vm.getByte
    let vm := g.1
    .next { vm with stack := vm.stack.push g.2 }
  | 0x14 => -- PushDeref: the popped word is used as an 8-bit id
    let p := vm.stack.pop 1
    let vm := { vm with stack := p.1 }
    let r := vm.loadInt (Address.fromId (p.2 % 256)) 0
    .next { r.1 with stack := r.1.stack.push r.2 }
  | 0x15 => -- PopDeref: `uint8_t index = _stack.pop();`
    let p := vm.stack.pop 1
    let q := p.1.pop 1
    let vm := { vm with stack := q.1 }
    .next (vm.storeInt (Address.fromId (q.2 % 256)) 0 p.2)
  | 0x20 => -- Dup
    let t := vm.stack.topGet 0
    .next { vm with stack := t.1.push t.2 }
  | 0x21 => -- Drop
    let p := vm.stack.pop 1
    .next { vm with stack := p.1 }
  | 0x22 => -- Swap
    .next { vm with stack := vm.stack.swap }
  | 0x3a => -- If sz: on a zero condition skip sz bytes, then the next
            -- opcode must be EndIf or Else
    let g := vm.getByte
    let vm := g.1
    let p := vm.stack.pop 1
    let vm := { vm with stack := p.1 }
    if p.2 = 0 then
      let vm := { vm with pc := vm.pc + (g.2 : Int) }
      let h := vm.getByte
      let vm := h.1
      if h.2 = 0x3c then .next vm             -- EndIf: just continue
      else if h.2 = 0x3b then                 -- Else: skip its Sz byte
        let i := vm.getByte
        .next i.1
      else .ret { vm with err := .unexpectedOpInIf } (-1)
    else .next vm
  | 0x3b => -- Else: the If succeeded, skip the else body
    let g := vm.getByte
    let vm := g.1
    .next { vm with pc := vm.pc + (g.2 : Int) }
  | 0x3c => -- EndIf
    .next vm
  | 0x3f => -- CallNative
    let g := vm.getByte
    let vm := g.1
    let id := g.2
    let vm := { vm with stack := vm.stack.push (toUInt32 vm.pc) }
    let sf := vm.stack.setFrame (nativeNumParams id) 0
    if sf.2 = false then .ret { vm with stack := sf.1 } (-1)
    else
      let vm := { vm with stack := sf.1 }
      let nb := vm.nativeBody hops id
      if nb.2.2 = false then .ret nb.1 (-1)
      else
        let vm := nb.1
        let rf := vm.stack.restoreFrame nb.2.1
        .next { vm with stack := rf.1, pc := rf.2 }
  | 0x40 => -- Return
    let p := if vm.stack.isEmpty then (vm.stack, 0) else vm.stack.pop 1
    let retVal := p.2
    let vm := { vm with stack := p.1 }
    if vm.stack.isEmpty then .ret vm 0
    else
      let rf := vm.stack.restoreFrame retVal
      let vm := { vm with stack := rf.1, pc := rf.2 }
      if rf.2 < 0 then
        let q := vm.stack.pop 1
        .ret { vm with stack := q.1 } (toInt32 retVal)
      else .next vm
  | 0x41 => -- SetFrame: operand packs params in the high nibble and
            -- locals in the low nibble (`addOpPL`, CompileEngine.h 189)
    let g := vm.getByte
    let vm := g.1
    let sf := vm.stack.setFrame (g.2 / 16) (g.2 % 16)
    if sf.2 = false then .ret { vm with stack := sf.1 } (-1)
    else .next { vm with stack := sf.1 }
  | 0x42 => -- Jump sz
    let g := vm.getByte
    let vm := g.1
    .next { vm with pc := vm.pc + (g.2 : Int) }
  | 0x43 => -- Loop sz
    let g := vm.getByte
    let vm := g.1
    .next { vm with pc := vm.pc - (g.2 : Int) }
  | 0x50 => .next (vm.arithNat Nat.lor)    -- Or
  | 0x51 => .next (vm.arithNat Nat.xor)    -- Xor
  | 0x52 => .next (vm.arithNat Nat.land)   -- And
  | 0x53 => -- Not: ~x on uint32_t is 2^32 - 1 - x
    let t := vm.stack.topGet 0
    .next { vm with stack := t.1.topSet (4294967295 - t.2 % 4294967296) }
  | 0x54 => -- LOr: `push(pop() || pop())`; `||` short-circuits, so the
            -- second pop happens only when the first value is zero
    let p := vm.stack.pop 1
    if p.2 ≠ 0 then .next { vm with stack := p.1.push 1 }
    else
      let q := p.1.pop 1
      .next { vm with stack := q.1.push (if q.2 ≠ 0 then 1 else 0) }
  | 0x55 => -- LAnd: `push(pop() && pop())`; `&&` short-circuits, so the
            -- second pop happens only when the first value is nonzero
    let p := vm.stack.pop 1
    if p.2 = 0 then .next { vm with stack := p.1.push 0 }
    else
      let q := p.1.pop 1
      .next { vm with stack := q.1.push (if q.2 ≠ 0 then 1 else 0) }
  | 0x56 => -- LNot
    let t := vm.stack.topGet 0
    .next { vm with stack := t.1.topSet (if t.2 = 0 then 1 else 0) }
  | 0x57 => .next (vm.cmpInt (fun a b => a < b))       -- LTInt
  | 0x58 => .next (vm.cmpFloat hops.flt)               -- LTFloat
  | 0x59 => .next (vm.cmpInt (fun a b => a ≤ b))       -- LEInt
  | 0x5a => .next (vm.cmpFloat hops.fle)               -- LEFloat
  | 0x5b => .next (vm.cmpInt (fun a b => a = b))       -- EQInt
  | 0x5c => .next (vm.cmpFloat hops.feq)               -- EQFloat
  | 0x5d => .next (vm.cmpInt (fun a b => a ≠ b))       -- NEInt
  | 0x5e => .next (vm.cmpFloat hops.fne)               -- NEFloat
  | 0x5f => .next (vm.cmpInt (fun a b => b ≤ a))       -- GEInt
  | 0x60 => .next (vm.cmpFloat hops.fge)               -- GEFloat
  | 0x61 => .next (vm.cmpInt (fun a b => b < a))       -- GTInt
  | 0x62 => .next (vm.cmpFloat hops.fgt)               -- GTFloat
  | 0x63 => .next (vm.arithInt (fun a b => a + b))     -- AddInt
  | 0x64 => .next (vm.arithFloat hops.fadd)            -- AddFloat
  | 0x65 => .next (vm.arithInt (fun a b => a - b))     -- SubInt
  | 0x66 => .next (vm.arithFloat hops.fsub)            -- SubFloat
  | 0x67 => .next (vm.arithInt (fun a b => a * b))     -- MulInt
  | 0x68 => .next (vm.arithFloat hops.fmul)            -- MulFloat
  | 0x69 => .next (vm.arithInt (fun a b => Int.tdiv a b)) -- DivInt
  | 0x6a => .next (vm.arithFloat hops.fdiv)            -- DivFloat
  | 0x6b => -- NegInt
    let t := vm.stack.topGet 0
    .next { vm with stack := t.1.topSet (toUInt32 (-(toInt32 t.2))) }
  | 0x6c => -- NegFloat
    let t := vm.stack.topGet 0
    .next { vm with stack := t.1.topSet (hops.fneg t.2) }
  | 0x6d => .next (vm.incDecInt true true)             -- PreIncInt
  | 0x6e => .next (vm.incDecFloat hops true true)      -- PreIncFloat
  | 0x6f => .next (vm.incDecInt false true)            -- PreDecInt
  | 0x70 => .next (vm.incDecFloat hops false true)     -- PreDecFloat
  | 0x71 => .next (vm.incDecInt true false)            -- PostIncInt
  | 0x72 => .next (vm.incDecFloat hops true false)     -- PostIncFloat
  | 0x73 => .next (vm.incDecInt false false)           -- PostDecInt
  | 0x74 => .next (vm.incDecFloat hops false false)    -- PostDecFloat
  | 0x80 => -- Call: targ = id | (index << 8); the operands occupy
            -- disjoint bit ranges, so | is addition
    let g := vm.getByte
    let vm := g.1
    let targ := g.2 + index * 256
    let vm := { vm with stack := vm.stack.push (toUInt32 vm.pc) }
    let vm := { vm with pc := toInt16 (targ + vm.codeOffset) }
    if vm.romB (toUInt16 vm.pc) ≠ 0x41 then
      .ret { vm with err := .expectedSetFrame } (-1)
    else .next vm
  | 0x90 => -- Offset i: top += index (uint32_t)
    let t := vm.stack.topGet 0
    .next { vm with stack := t.1.topSet ((t.2 + index) % 4294967296) }
  | 0xa0 => -- Index n: v = pop; top += v * index (uint32_t)
    let p := vm.stack.pop 1
    let t := p.1.topGet 0
    .next { vm with stack := t.1.topSet ((t.2 + p.2 * index) % 4294967296) }
  | _ => -- default: InvalidOp
    .ret { vm with err := .invalidOp } (-1)

/-- One iteration of the dispatch loop of `Interpreter::execute`
(Interpreter.cpp lines 110-131): promote a pending stack error, bail
out on error recording `_errorAddr = _pc - 1`, then fetch one byte,
decode it and dispatch through `execOp`. -/
def step (hops : HostOps) (vm : VM) : StepOut :=
  let vm := if vm.stack.err ≠ .none then { vm with err := vm.stack.err } else vm
  if vm.err ≠ .none then
    .ret { vm with errAddr := vm.pc - 1 } (-1)
  else
    let f := vm.getByte
    let d := decode f.2
    execOp hops f.1 d.1 d.2

/-- Iterate `step` at most `fuel` times, mirroring the `while (1)` of
`Interpreter::execute`; a `.next` result after the last permitted
iteration is returned as is. -/
def runSteps (hops : HostOps) : Nat → VM → StepOut
  | 0, vm => .next vm
  | fuel + 1, vm =>
    match step hops vm with
    | .next vm' => runSteps hops fuel vm'
    | r => r

end VM

end Clover

namespace Clover

/-- `getUInt16ROM` (Interpreter.h lines 337-342): two ROM bytes
little-endian, returned as `uint16_t`. -/
def rom16 (rom : Nat → Nat) (i : Nat) : Nat :=
  (rom (i % 65536) % 256) ||| ((rom ((i + 1) % 65536) % 256) <<< 8)

/-- The command-table scan of `Interpreter::init` (Interpreter.cpp lines
41-61): walk 6-byte entries until a 0 byte; every entry whose first
byte equals `cmd` overwrites the recorded
`(numParams, initStart, loopStart)`, so the last match wins.
`_codeOffset` is a `uint16_t`, hence the mod 2^16 updates.  The fuel
bounds the iteration count; `none` models the C++ loop never reaching a
0 byte (nontermination).  On termination the result is the final
`_codeOffset` (just past the terminating 0) and the recorded data of
the matching entry, if any. -/
def findCmdLoop (rom : Nat → Nat) (cmd : Nat) :
    Nat → Nat → Option (Nat × Nat × Nat) → Option (Nat × Option (Nat × Nat × Nat))
  | 0, _, _ => none
  | fuel + 1, co, acc =>
    let c := rom (co % 65536) % 256
    if c = 0 then some ((co + 1) % 65536, acc)
    else
      let acc := if c = cmd then
          some (rom ((co + 1) % 65536) % 256, rom16 rom (co + 2), rom16 rom (co + 4))
        else acc
      findCmdLoop rom cmd fuel ((co + 6) % 65536) acc

/-- `Interpreter::init` (Interpreter.cpp lines 12-90) up to and
including the sentinel push.  `cmd` and `size` are `uint8_t`
parameters.  `_constOffset = 8`; the constants size comes from ROM byte
4, the global allocation from byte 5, the stack allocation from byte 6.
`g0` and `m0` stand for the contents of the freshly `new`-allocated
(uninitialized) global and stack arrays.  `none` models a
non-terminating scan.  The returned `Bool` is false exactly when one of
the `CmdNotFound` / `WrongNumberOfArgs` / `ExpectedSetFrame` checks
failed; on true the state is about to run `execute(_initStart)` — the
dispatch loop modelled by `VM.step` — with the sentinel return pc
`uint32_t(-1)` pushed. -/
def initPrep (rom : Nat → Nat) (cmd : Nat) (buf : Nat → Nat) (size : Nat)
    (g0 : Nat → Nat) (m0 : Int → Nat) : Option (VM × Bool) :=
  let constSize := (rom 4 % 256) * 4
  let codeOffset0 := 8 + constSize
  let st : Stack :=
    { mem := m0, size := ((rom 6 % 256 : Nat) : Int), sp := 0, bp := 0, err := .none }
  match findCmdLoop rom (cmd % 256) 65536 codeOffset0 none with
  | Option.none => Option.none
  | some (coAfter, found) =>
    let vm : VM := { rom := rom, global := g0, stack := st, pc := 0,
                     err := .none, errAddr := -1, params := buf,
                     paramsSize := size % 256, codeOffset := coAfter }
    some (match found with
    | Option.none => ({ vm with err := .cmdNotFound, errAddr := -1 }, false)
    | some (np, is, _) =>
      let initStart := (is + coAfter) % 65536
      if np ≠ size % 256 then ({ vm with err := .wrongNumberOfArgs }, false)
      else if vm.romB initStart ≠ 0x41 then
        ({ vm with err := .expectedSetFrame }, false)
      else
        ({ vm with stack := vm.stack.push 4294967295, pc := (initStart : Int) },
          true))

/-- Little-endian bytes of one 32-bit constants word (the `memcpy` of
the constants area in `emit`; the host is little-endian). -/
def word4 (w : Nat) : List Nat :=
  [w % 256, w / 256 % 256, w / 65536 % 256, w / 16777216 % 256]

/-- One command-table entry as `CompileEngine::emit` writes it. -/
structure CmdEntry where
  cmd : Nat
  count : Nat
  initAddr : Nat
  loopAddr : Nat

/-- The six bytes of one entry (CompileEngine.cpp lines 111-118):
command byte, param count, then the two entry addresses
little-endian. -/
def entryBytes (e : CmdEntry) : List Nat :=
  [e.cmd % 256, e.count % 256, e.initAddr % 256, e.initAddr / 256 % 256,
   e.loopAddr % 256, e.loopAddr / 256 % 256]

/-- `CompileEngine::emit` (CompileEngine.cpp lines 89-123): the magic
"arly", three size bytes and a zero pad, the constants words, the
6-byte command entries, a terminating 0 byte, then the code.
`stackSize` stands for the already-computed
`_localHighWaterMark + StackOverhead`. -/
def emitBytes (rom32 : List Nat) (globalSize stackSize : Nat)
    (effects : List CmdEntry) (rom8 : List Nat) : List Nat :=
  [97, 114, 108, 121, rom32.length % 256, globalSize % 256, stackSize % 256, 0]
    ++ (rom32.map word4).flatten ++ (effects.map entryBytes).flatten ++ [0] ++ rom8

/-- The simulator's host ROM (`src/mac/main.cpp` lines 31-34): the
bytes of the image, 0 out of range. -/
def romOf (l : List Nat) : Nat → Nat := fun i => l.getD i 0

/-- `CompileEngine::Type` (CompileEngine.h line 24). -/
inductive CType where
  | none
  | float
  | int
  | uint8
  | ptr
  deriving DecidableEq, Repr

/-- `CloverCompileEngine::findInt` (CloverCompileEngine.cpp lines
1039-1053): linear search of the 32-bit constants pool for
`uint32_t(i)`, appending when absent; the returned pool index is a
`uint8_t`. -/
def findInt (rom32 : List Nat) (i : Int) : List Nat × Nat :=
  match rom32.findIdx? (fun v => toUInt32 i = v) with
  | some idx => (rom32, idx % 256)
  | none => (rom32 ++ [toUInt32 i], rom32.length % 256)

/-- `CloverCompileEngine::findFloat` (lines 1055-1070), operating on the
bit pattern `floatToInt(f)` of its argument. -/
def findFloat (rom32 : List Nat) (bits : Nat) : List Nat × Nat :=
  match rom32.findIdx? (fun v => bits = v) with
  | some idx => (rom32, idx % 256)
  | none => (rom32 ++ [bits], rom32.length % 256)

/-- The `ExprEntry::Type::Int` arm of the `ExprAction::Right` case of
`CloverCompileEngine::bakeExpr` (CloverCompileEngine.cpp lines
1087-1108), with the emission helpers `addOpSingleByteIndex`, `addOpInt`
and `addOpId` (CompileEngine.h lines 156-188) inlined.  `i2fBits`
abstracts the host conversion `float(int32_t)` to IEEE-754 bits, on
which no claim depends.  Returns the constants pool and the code bytes.
Opcode values (Opcodes.h): `Push = 0x10`, `PushIntConst = 0x12`,
`PushIntConstS = 0xb0`. -/
def bakeIntRight (i2fBits : Int → Nat) (rom32 : List Nat) (rom8 : List Nat)
    (k : Int) (matchingType : CType) : List Nat × List Nat :=
  let i := toUInt32 k
  if matchingType = .float then
    -- promote to float: float f = float(int32_t(i)); Push findFloat(f)
    let r := findFloat rom32 (i2fBits (toInt32 i))
    (r.1, rom8 ++ [0x10, r.2])
  else if i ≤ 15 then
    -- addOpSingleByteIndex(Op::PushIntConstS, i): 0xb0 | (i & 0x0f)
    (rom32, rom8 ++ [0xb0 ||| (i &&& 0x0f)])
  else if i ≤ 255 then
    -- addOpInt(Op::PushIntConst, i) with i narrowed to uint8_t
    (rom32, rom8 ++ [0x12, i % 256])
  else
    -- addOpInt(Op::Push, findInt(i))
    let r := findInt rom32 (toInt32 i)
    (r.1, rom8 ++ [0x10, r.2])

/-- The fetch/decode rule exactly as claim C2 states it: split at
threshold `0x40` instead of the source's `0x80`. -/
def decodeClaim (b : Nat) : Nat × Nat :=
  if 0x40 ≤ b then (b &&& 0xf0, b &&& 0x0f) else (b, 0)

/-- The ROM-constant fetch exactly as claim C6 states it: the 32-bit
little-endian word at byte offset `id * 4 + ConstOffset` with
`ConstOffset` equal to 12. -/
def loadConstClaim (rom : Nat → Nat) (id : Nat) : Nat :=
  rom (id * 4 + 12) % 256 + 256 * (rom (id * 4 + 13) % 256)
    + 65536 * (rom (id * 4 + 14) % 256) + 16777216 * (rom (id * 4 + 15) % 256)

/-- The command lookup exactly as claim C5 (with the spec §6.1 layout it
quotes) states it: 12-byte entries of a 7-byte NUL-padded name, one
parameter-count byte and two little-endian entry offsets, terminated by
a zero byte; an entry matches when its seven name bytes equal the
command name. -/
def findCmdClaimLoop (rom : Nat → Nat) (name : Nat → Nat) :
    Nat → Nat → Option (Nat × Nat × Nat) → Option (Nat × Option (Nat × Nat × Nat))
  | 0, _, _ => none
  | fuel + 1, co, acc =>
    if rom co % 256 = 0 then some (co + 1, acc)
    else
      let hit := (List.range 7).all (fun j => rom (co + j) % 256 == name j % 256)
      let acc := if hit then
          some (rom (co + 7) % 256, rom16 rom (co + 8), rom16 rom (co + 10))
        else acc
      findCmdClaimLoop rom name fuel (co + 12) acc

/-- The start of claim C5's command lookup on an image laid out as the
spec §6.1 it quotes prescribes: header of 12 bytes, constants of
`rom 4 + 256 * rom 5` words at offset 12, then the table. -/
def findCmdClaim (rom : Nat → Nat) (name : Nat → Nat) :
    Option (Nat × Option (Nat × Nat × Nat)) :=
  findCmdClaimLoop rom name 65536 (12 + 4 * (rom 4 % 256 + 256 * (rom 5 % 256))) none

end Clover

namespace Clover

/-- A concrete `HostOps` instance used to run concrete executions; the
verified claims never depend on the abstracted host operations. -/
def hops0 : HostOps :=
  { fadd := fun _ _ => 0, fsub := fun _ _ => 0, fmul := fun _ _ => 0,
    fdiv := fun _ _ => 0, fneg := fun _ => 0,
    flt := fun _ _ => false, fle := fun _ _ => false, feq := fun _ _ => false,
    fne := fun _ _ => false, fge := fun _ _ => false, fgt := fun _ _ => false,
    finc := fun _ => 0, fdec := fun _ => 0, i2f := fun _ => 0, f2i := fun _ => 0,
    fmin := fun _ _ => 0, fmax := fun _ _ => 0,
    randInt := fun _ _ => 0, randFloat := fun _ _ => 0 }

/-- `true` exactly on the `.ret` outcome of a dispatch iteration. -/
def StepOut.isRet : StepOut → Bool
  | .ret _ _ => true
  | .next _ => false

/-- The `int32_t` a `.ret` outcome returns (0 for `.next`). -/
def StepOut.retVal : StepOut → Int
  | .ret _ v => v
  | .next _ => 0

/-- A concrete frame for the C3 witness: three words on a stack of ten,
the return pc 7 on top. -/
def c3s : Stack :=
  { mem := fun i => if i = 2 then 7 else 3, size := 10, sp := 3, bp := 0,
    err := .none }

/-- Program `If 0; Push ...` with a zero condition on the stack: the
`If` skips 0 bytes and lands on `Push`, which is neither `Else` nor
`EndIf`. -/
def c1vm : VM :=
  { rom := romOf [0x3a, 0x00, 0x10, 0x80],
    global := fun _ => 0,
    stack := { mem := fun _ => 0, size := 8, sp := 1, bp := 0, err := .none },
    pc := 0, err := .none, errAddr := -1, params := fun _ => 0,
    paramsSize := 0, codeOffset := 0 }

/-- Program `PushRef 0xC0; Call 4; SetFrame 1 0; Push 0xC0; PushDeref`:
the caller's local 0 (value 42) has its reference pushed and passed as
the single parameter of a function, whose body dereferences it. -/
def c4vm : VM :=
  { rom := romOf [0x13, 0xc0, 0x80, 0x04, 0x41, 0x10, 0x10, 0xc0, 0x14],
    global := fun _ => 0,
    stack := { mem := fun i => if i = 0 then 42 else 0, size := 16, sp := 1,
               bp := 0, err := .none },
    pc := 0, err := .none, errAddr := -1, params := fun _ => 0,
    paramsSize := 0, codeOffset := 0 }

/-- An image produced by the repository's own `emit`: no constants, one
command with byte 65, parameter count 0 and both entries at code offset
0, and a code area starting with `SetFrame 0 0`. -/
def c5img : List Nat := emitBytes [] 0 4 [⟨65, 0, 0, 0⟩] [0x41, 0x00]

/-- The 7-byte NUL-padded name "A" that claim C5 would scan for. -/
def c5name : Nat → Nat := fun j => if j = 0 then 65 else 0

/-- A VM whose ROM byte `i` is `i % 256`, for the C6 counterexample. -/
def c6vm : VM :=
  { rom := fun i => i % 256, global := fun _ => 0,
    stack := { mem := fun _ => 0, size := 8, sp := 0, bp := 0, err := .none },
    pc := 0, err := .none, errAddr := -1, params := fun _ => 0,
    paramsSize := 0, codeOffset := 0 }

/-- A frame for the C7 failing input: locals `(addr, v, n) = (0x80, 1, 1)`
— fill one word of global memory (word 0) with the integer 1. -/
def c7vm : VM :=
  { rom := fun _ => 0, global := fun _ => 7,
    stack := { mem := fun i => if i = 0 then 0x80 else if i = 1 then 1
                 else if i = 2 then 1 else 0,
               size := 8, sp := 3, bp := 0, err := .none },
    pc := 0, err := .none, errAddr := -1, params := fun _ => 0,
    paramsSize := 0, codeOffset := 0 }

/-- Program `LOr` with two nonzero words on the stack, for the C9
witness. -/
def c9vm : VM :=
  { rom := romOf [0x54],
    global := fun _ => 0,
    stack := { mem := fun i => if i = 0 then 5 else if i = 1 then 7 else 0,
               size := 8, sp := 2, bp := 0, err := .none },
    pc := 0, err := .none, errAddr := -1, params := fun _ => 0,
    paramsSize := 0, codeOffset := 0 }

/-- Program `PopDeref` with a Const target address (0x10) below the
value 99, for the C10 witness. -/
def c10vm : VM :=
  { rom := romOf [0x15],
    global := fun _ => 3,
    stack := { mem := fun i => if i = 0 then 0x10 else if i = 1 then 99 else 0,
               size := 8, sp := 2, bp := 0, err := .none },
    pc := 0, err := .none, errAddr := -1, params := fun _ => 0,
    paramsSize := 0, codeOffset := 0 }

/-- The accumulator of the command-table scan after processing `n`
6-byte entries starting at offset `co`: each matching entry overwrites
the record, so the last match wins. -/
def scanFold (rom : Nat → Nat) (cmd : Nat) :
    Nat → Nat → Option (Nat × Nat × Nat) → Option (Nat × Nat × Nat)
  | _, 0, acc => acc
  | co, n + 1, acc =>
    scanFold rom cmd (co + 6) n
      (if rom (co % 65536) % 256 = cmd
       then some (rom ((co + 1) % 65536) % 256, rom16 rom (co + 2),
         rom16 rom (co + 4))
       else acc)

/-- What the command-table scan of `init` records, computed from the
entry list the emitter wrote rather than from the ROM bytes: entries
are matched on their single command byte and every later match
overwrites an earlier one, so the last matching entry wins.  The entry
data is what the 6 bytes of an entry can carry: the count mod 2^8 and
the two addresses mod 2^16. -/
def tableLookup (cmd : Nat) (effects : List CmdEntry)
    (acc : Option (Nat × Nat × Nat)) : Option (Nat × Nat × Nat) :=
  effects.foldl (fun acc e =>
    if e.cmd % 256 = cmd
    then some (e.count % 256, e.initAddr % 65536, e.loopAddr % 65536)
    else acc) acc

end Clover

namespace Clover

theorem lor_shiftLeft_eq_add {a b k : Nat} (h : a < 2 ^ k) :
    a ||| (b <<< k) = a + b * 2 ^ k := by
  apply Nat.eq_of_testBit_eq
  intro i
  rw [Nat.testBit_lor, Nat.testBit_shiftLeft]
  rcases lt_or_ge i k with hik | hik
  · have h1 : (decide (i ≥ k) && b.testBit (i - k)) = false := by
      simp [Nat.not_le.mpr hik]
    rw [h1, Bool.or_false, Nat.add_comm, Nat.mul_comm b (2 ^ k),
      Nat.testBit_mul_pow_two_add _ h i, if_pos hik]
  · have h1 : a.testBit i = false :=
      Nat.testBit_lt_two_pow
        (lt_of_lt_of_le h (Nat.pow_le_pow_right (by norm_num) hik))
    rw [h1, Bool.false_or, Nat.add_comm, Nat.mul_comm b (2 ^ k),
      Nat.testBit_mul_pow_two_add _ h i, if_neg (Nat.not_lt.mpr hik)]
    simp [hik]

theorem lor_byte_eq_add {b0 b1 : Nat} (h0 : b0 < 256) :
    b0 ||| (b1 <<< 8) = b0 + 256 * b1 := by
  have := lor_shiftLeft_eq_add (k := 8) (b := b1) h0
  omega

theorem lor_word_eq_add {b0 b1 b2 b3 : Nat}
    (h0 : b0 < 256) (h1 : b1 < 256) (h2 : b2 < 256) :
    ((b0 ||| (b1 <<< 8)) ||| (b2 <<< 16)) ||| (b3 <<< 24)
      = b0 + 256 * b1 + 65536 * b2 + 16777216 * b3 := by
  have e1 : b0 ||| (b1 <<< 8) = b0 + 256 * b1 := lor_byte_eq_add h0
  have e2 : (b0 + 256 * b1) ||| (b2 <<< 16) = b0 + 256 * b1 + b2 * 65536 := by
    have := lor_shiftLeft_eq_add (k := 16) (b := b2)
      (a := b0 + 256 * b1) (by omega)
    omega
  have e3 : (b0 + 256 * b1 + b2 * 65536) ||| (b3 <<< 24)
      = b0 + 256 * b1 + b2 * 65536 + b3 * 16777216 := by
    have := lor_shiftLeft_eq_add (k := 24) (b := b3)
      (a := b0 + 256 * b1 + b2 * 65536) (by omega)
    omega
  rw [e1, e2, e3]
  ring

theorem toUInt32_toInt16_roundtrip {v : Nat}
    (h : v < 32768 ∨ (4294934528 ≤ v ∧ v < 4294967296)) :
    toUInt32 (toInt16 v) = v := by
  unfold toUInt32 toInt16
  rcases h with h | h
  · have hm : v % 65536 = v := Nat.mod_eq_of_lt (by omega)
    simp only [hm]
    rw [if_pos (by exact_mod_cast h)]
    omega
  · have hm : v % 65536 = v - 4294901760 := by omega
    simp only [hm]
    rw [if_neg (by omega)]
    omega

theorem toInt32_toUInt32_roundtrip {k : Int}
    (h : -2147483648 ≤ k ∧ k < 2147483648) :
    toInt32 (toUInt32 k) = k := by
  unfold toInt32 toUInt32
  rcases le_or_lt 0 k with hk | hk
  · have : (k % 4294967296) = k := Int.emod_eq_of_lt hk (by omega)
    simp only [this]
    omega
  · have : (k % 4294967296) = k + 4294967296 := by omega
    simp only [this]
    omega

end Clover


namespace Clover

theorem pop_fst (s : Stack) (n : Nat) :
    (s.pop n).1
      = { s with
          sp := s.sp - (n : Int),
          err := if s.sp < (n : Int) then Error.stackUnderrun else s.err } := by
  unfold Stack.pop Stack.ensureCount
  split_ifs <;> rfl

theorem pop_snd (s : Stack) (n : Nat) :
    (s.pop n).2 = s.mem (s.sp - (n : Int)) := by
  unfold Stack.pop Stack.ensureCount
  split_ifs <;> rfl

theorem push_eq (s : Stack) (v : Nat) :
    s.push v
      = { s with
          mem := upd s.mem s.sp v,
          sp := s.sp + 1,
          err := if s.size ≤ s.sp then Error.stackOverrun else s.err } := by
  unfold Stack.push Stack.ensurePush
  split_ifs <;> rfl

/-- C3: for every execution of `SetFrame` with parameter count `p` and
local count `l` (on a stack holding the just-pushed return pc on top),
the VM pops the return pc, advances `sp` by `l` words to reserve the
locals, pushes the saved return pc and then the previous `bp`, and
finally sets `bp = sp - p - l - 2` (with `sp` its resulting value),
failing with `NotEnoughArgs` exactly when that value would be
negative. -/
theorem C3_setFrame_frame_discipline (s : Stack) (p l : Nat)
    (hsp : 1 ≤ s.sp)
    (hpc : s.mem (s.sp - 1) < 32768 ∨
      (4294934528 ≤ s.mem (s.sp - 1) ∧ s.mem (s.sp - 1) < 4294967296)) :
    (s.setFrame p l).1.sp = s.sp + (l : Int) + 1
    ∧ (s.setFrame p l).1.mem (s.sp - 1 + (l : Int)) = s.mem (s.sp - 1)
    ∧ (s.setFrame p l).1.mem (s.sp + (l : Int)) = toUInt32 s.bp
    ∧ ((s.setFrame p l).2 = true ↔ 0 ≤ s.sp - (p : Int) - 1)
    ∧ ((s.setFrame p l).2 = true →
        (s.setFrame p l).1.bp
          = (s.setFrame p l).1.sp - (p : Int) - (l : Int) - 2)
    ∧ ((s.setFrame p l).2 = false →
        (s.setFrame p l).1.err = Error.notEnoughArgs
        ∧ (s.setFrame p l).1.bp = s.bp) := by
  have hrt := toUInt32_toInt16_roundtrip hpc
  refine ⟨?_, ?_, ?_, ?_, ?_, ?_⟩ <;>
    simp only [Stack.setFrame, pop_fst, pop_snd, push_eq]
  · split_ifs <;> (try dsimp only) <;> omega
  · split_ifs <;> (try dsimp only) <;> simp only [upd, Nat.cast_one] <;>
      split_ifs <;> first | exact hrt | rfl | (exfalso; omega)
  · split_ifs <;> (try dsimp only) <;> simp only [upd, Nat.cast_one] <;>
      split_ifs <;> first | exact hrt | rfl | (exfalso; omega)
  · split_ifs <;> (try dsimp only) <;>
      first
        | exact iff_of_false not_false (by omega)
        | exact iff_of_true rfl (by omega)
  · split_ifs <;> (try dsimp only) <;> intro h <;>
      first
        | exact h.elim
        | omega
  · split_ifs <;> (try dsimp only) <;> intro h <;>
      first
        | exact h.elim
        | exact ⟨rfl, rfl⟩

/-- Witness for C3 at `p = 2`, `l = 1` on the concrete frame `c3s`. -/
theorem C3_setFrame_frame_discipline_witness :
    (c3s.setFrame 2 1).1.sp = c3s.sp + ((1 : Nat) : Int) + 1
    ∧ (c3s.setFrame 2 1).1.mem (c3s.sp - 1 + ((1 : Nat) : Int))
        = c3s.mem (c3s.sp - 1)
    ∧ (c3s.setFrame 2 1).1.mem (c3s.sp + ((1 : Nat) : Int)) = toUInt32 c3s.bp
    ∧ ((c3s.setFrame 2 1).2 = true ↔ 0 ≤ c3s.sp - ((2 : Nat) : Int) - 1)
    ∧ ((c3s.setFrame 2 1).2 = true →
        (c3s.setFrame 2 1).1.bp
          = (c3s.setFrame 2 1).1.sp - ((2 : Nat) : Int) - ((1 : Nat) : Int) - 2)
    ∧ ((c3s.setFrame 2 1).2 = false →
        (c3s.setFrame 2 1).1.err = Error.notEnoughArgs
        ∧ (c3s.setFrame 2 1).1.bp = c3s.bp) :=
  C3_setFrame_frame_discipline c3s 2 1 (by decide) (Or.inl (by decide))

end Clover

namespace Clover

/-- C2 counterexample: for the fetched byte 0x41 (`Op::SetFrame`) the
source dispatches on the whole byte with index 0, while the claim's
0x40 threshold would dispatch on op 0x40 with index 1. -/
theorem C2_counterexample :
    VM.decode 0x41 = (0x41, 0) ∧ decodeClaim 0x41 = (0x40, 1)
      ∧ VM.decode 0x41 ≠ decodeClaim 0x41 := by
  decide

set_option maxRecDepth 4096 in
/-- C2 (amended): for every byte the VM fetches as an instruction, if
the byte is greater than or equal to 0x80 (not 0x40) it dispatches on
`op = byte & 0xF0` — the byte with its low nibble cleared — with inline
operand index `byte & 0x0F` — the low nibble; otherwise it dispatches
on the whole byte with index 0. -/
theorem C2_decode_splits_at_0x80 (b : Nat) (hb : b < 256) :
    VM.decode b = if 0x80 ≤ b then (16 * (b / 16), b % 16) else (b, 0) := by
  revert hb
  revert b
  decide

/-- Witness for C2 at the byte 0x95. -/
theorem C2_decode_splits_at_0x80_witness :
    (0x95 : Nat) < 256
    ∧ VM.decode 0x95 = if 0x80 ≤ 0x95 then (16 * (0x95 / 16), 0x95 % 16)
        else (0x95, 0) :=
  ⟨by decide, C2_decode_splits_at_0x80 0x95 (by decide)⟩

/-- C6 counterexample: for constant id 0 on the ROM whose byte `i` is
`i % 256`, the VM assembles the word from bytes 8..11 (value
185207048), while the claim's `ConstOffset = 12` would read bytes
12..15 (value 252579084). -/
theorem C6_counterexample :
    (c6vm.loadInt (Address.fromId 0) 0).2 = 185207048
    ∧ loadConstClaim c6vm.rom 0 = 252579084
    ∧ (185207048 : Nat) ≠ 252579084 := by
  decide

/-- C6 (amended): for every 8-bit constant id (and load index), the VM
fetches the 32-bit little-endian constant word at ROM byte offset
`(id + index) * 4 + ConstOffset` where `ConstOffset` equals 8, leaving
the rest of the state unchanged. -/
theorem C6_const_fetch_offset_8 (vm : VM) (id index : Nat) :
    (vm.loadInt ⟨1, id⟩ index).1 = vm
    ∧ (vm.loadInt ⟨1, id⟩ index).2 =
        vm.romB ((id + index) * 4 + ConstOffset)
        + 256 * vm.romB ((id + index) * 4 + ConstOffset + 1)
        + 65536 * vm.romB ((id + index) * 4 + ConstOffset + 2)
        + 16777216 * vm.romB ((id + index) * 4 + ConstOffset + 3) := by
  refine ⟨rfl, ?_⟩
  unfold VM.loadInt
  simp only [VM.romB]
  rw [show ((id + index) * 4 + ConstOffset) % 65536 % 65536
      = ((id + index) * 4 + ConstOffset) % 65536 by omega]
  rw [show (((id + index) * 4 + ConstOffset) % 65536 + 1) % 65536
      = ((id + index) * 4 + ConstOffset + 1) % 65536 by omega]
  rw [show (((id + index) * 4 + ConstOffset) % 65536 + 2) % 65536
      = ((id + index) * 4 + ConstOffset + 2) % 65536 by omega]
  rw [show (((id + index) * 4 + ConstOffset) % 65536 + 3) % 65536
      = ((id + index) * 4 + ConstOffset + 3) % 65536 by omega]
  exact lor_word_eq_add (Nat.mod_lt _ (by norm_num))
    (Nat.mod_lt _ (by norm_num)) (Nat.mod_lt _ (by norm_num))

/-- C7: evaluating the `InitArray` native at the failing input
`(addr, v, n) = (0x80, 1, 1)` — fill one word of global memory with the
value 1 — leaves global word 0 equal to 0x01010101 (= 16843009), not 1:
`memset` replicates the low byte of `v` over every byte of the filled
words instead of storing the 32-bit value `v`. -/
theorem C7_initArray_memset_bug :
    (c7vm.nativeInitArray.1.global 0 = 16843009)
    ∧ c7vm.nativeInitArray.2 = true
    ∧ c7vm.nativeInitArray.1.err = Error.none
    ∧ (16843009 : Nat) ≠ 1 := by
  decide

end Clover

namespace Clover

theorem step_fetch (hops : HostOps) (vm : VM)
    (he : vm.err = Error.none) (hse : vm.stack.err = Error.none) :
    VM.step hops vm = VM.execOp hops { vm with pc := vm.pc + 1 }
      (VM.decode (vm.romB (toUInt16 vm.pc))).1
      (VM.decode (vm.romB (toUInt16 vm.pc))).2 := by
  unfold VM.step VM.getByte
  rw [if_neg (show ¬(vm.stack.err ≠ Error.none) by simp [hse])]
  rw [if_neg (show ¬(vm.err ≠ Error.none) by simp [he])]

theorem execOp_lor_eq (hops : HostOps) (vm : VM) (index : Nat) :
    VM.execOp hops vm 0x54 index =
      (let p := vm.stack.pop 1
       if p.2 ≠ 0 then StepOut.next { vm with stack := p.1.push 1 }
       else
         let q := p.1.pop 1
         StepOut.next
           { vm with stack := q.1.push (if q.2 ≠ 0 then 1 else 0) }) := rfl

theorem execOp_land_eq (hops : HostOps) (vm : VM) (index : Nat) :
    VM.execOp hops vm 0x55 index =
      (let p := vm.stack.pop 1
       if p.2 = 0 then StepOut.next { vm with stack := p.1.push 0 }
       else
         let q := p.1.pop 1
         StepOut.next
           { vm with stack := q.1.push (if q.2 ≠ 0 then 1 else 0) }) := rfl

theorem execOp_pop_eq (hops : HostOps) (vm : VM) (index : Nat) :
    VM.execOp hops vm 0x11 index =
      (let g := vm.getByte
       let vm1 := g.1
       let p := vm1.stack.pop 1
       StepOut.next
         (({ vm1 with stack := p.1 } : VM).storeInt (Address.fromId g.2) 0
           p.2)) := rfl

theorem execOp_popDeref_eq (hops : HostOps) (vm : VM) (index : Nat) :
    VM.execOp hops vm 0x15 index =
      (let p := vm.stack.pop 1
       let q := p.1.pop 1
       StepOut.next
         (({ vm with stack := q.1 } : VM).storeInt
           (Address.fromId (q.2 % 256)) 0 p.2)) := rfl

theorem execOp_if_eq (hops : HostOps) (vm : VM) (index : Nat) :
    VM.execOp hops vm 0x3a index =
      (let g := vm.getByte
       let vm1 := g.1
       let p := vm1.stack.pop 1
       let vm2 : VM := { vm1 with stack := p.1 }
       if p.2 = 0 then
         let vm3 : VM := { vm2 with pc := vm2.pc + (g.2 : Int) }
         let h := vm3.getByte
         let vm4 := h.1
         if h.2 = 0x3c then StepOut.next vm4
         else if h.2 = 0x3b then
           let i := vm4.getByte
           StepOut.next i.1
         else StepOut.ret { vm4 with err := .unexpectedOpInIf } (-1)
       else StepOut.next vm2) := rfl

end Clover

namespace Clover

/-- C9: for the `LOr` opcode the number of operands consumed depends on
the first popped value: when the top of stack is nonzero exactly one
value is popped and 1 is pushed (net stack height unchanged), and only
when it is zero are two values popped before the 0/1 result is pushed;
symmetrically, `LAnd` pops only one operand (and pushes 0) when the top
of stack is zero.  The net stack effect is therefore not always a fixed
two-pops-one-push. -/
theorem C9_lor_land_short_circuit (hops : HostOps) (vm : VM)
    (he : vm.err = Error.none) (hse : vm.stack.err = Error.none)
    (hsz : 2 ≤ vm.stack.sp) (hcap : vm.stack.sp ≤ vm.stack.size) :
    (vm.romB (toUInt16 vm.pc) = 0x54 → vm.stack.mem (vm.stack.sp - 1) ≠ 0 →
      ∃ vm', VM.step hops vm = StepOut.next vm'
        ∧ vm'.stack.sp = vm.stack.sp
        ∧ vm'.stack.mem (vm.stack.sp - 1) = 1
        ∧ (∀ x, x ≠ vm.stack.sp - 1 → vm'.stack.mem x = vm.stack.mem x)
        ∧ vm'.err = Error.none ∧ vm'.stack.err = Error.none)
    ∧ (vm.romB (toUInt16 vm.pc) = 0x54 → vm.stack.mem (vm.stack.sp - 1) = 0 →
      ∃ vm', VM.step hops vm = StepOut.next vm'
        ∧ vm'.stack.sp = vm.stack.sp - 1
        ∧ vm'.stack.mem (vm.stack.sp - 2)
            = (if vm.stack.mem (vm.stack.sp - 2) ≠ 0 then 1 else 0)
        ∧ (∀ x, x ≠ vm.stack.sp - 2 → vm'.stack.mem x = vm.stack.mem x)
        ∧ vm'.err = Error.none ∧ vm'.stack.err = Error.none)
    ∧ (vm.romB (toUInt16 vm.pc) = 0x55 → vm.stack.mem (vm.stack.sp - 1) = 0 →
      ∃ vm', VM.step hops vm = StepOut.next vm'
        ∧ vm'.stack.sp = vm.stack.sp
        ∧ vm'.stack.mem (vm.stack.sp - 1) = 0
        ∧ (∀ x, x ≠ vm.stack.sp - 1 → vm'.stack.mem x = vm.stack.mem x)
        ∧ vm'.err = Error.none ∧ vm'.stack.err = Error.none)
    ∧ (vm.romB (toUInt16 vm.pc) = 0x55 → vm.stack.mem (vm.stack.sp - 1) ≠ 0 →
      ∃ vm', VM.step hops vm = StepOut.next vm'
        ∧ vm'.stack.sp = vm.stack.sp - 1
        ∧ vm'.stack.mem (vm.stack.sp - 2)
            = (if vm.stack.mem (vm.stack.sp - 2) ≠ 0 then 1 else 0)
        ∧ (∀ x, x ≠ vm.stack.sp - 2 → vm'.stack.mem x = vm.stack.mem x)
        ∧ vm'.err = Error.none ∧ vm'.stack.err = Error.none) := by
  refine ⟨?_, ?_, ?_, ?_⟩
  · intro hb hnz
    rw [step_fetch hops vm he hse, hb,
      show VM.decode 0x54 = (0x54, 0) from by decide, execOp_lor_eq]
    simp only [pop_fst, pop_snd, push_eq, Nat.cast_one]
    try dsimp only
    rw [if_pos hnz]
    refine ⟨_, rfl, ?_, ?_, ?_, he, ?_⟩
    · try dsimp only
      omega
    · try dsimp only
      simp [upd]
    · intro x hx
      try dsimp only
      simp [upd, hx]
    · try dsimp only
      rw [if_neg (by omega), if_neg (by omega)]
      exact hse
  · intro hb hz
    rw [step_fetch hops vm he hse, hb,
      show VM.decode 0x54 = (0x54, 0) from by decide, execOp_lor_eq]
    simp only [pop_fst, pop_snd, push_eq, Nat.cast_one]
    try dsimp only
    rw [if_neg (by simp [hz])]
    rw [show vm.stack.sp - (1 : Int) - 1 = vm.stack.sp - 2 from by ring]
    refine ⟨_, rfl, ?_, ?_, ?_, he, ?_⟩
    · try dsimp only
      omega
    · try dsimp only
      simp [upd]
    · intro x hx
      try dsimp only
      simp [upd, hx]
    · try dsimp only
      rw [if_neg (by omega), if_neg (by omega), if_neg (by omega)]
      exact hse
  · intro hb hz
    rw [step_fetch hops vm he hse, hb,
      show VM.decode 0x55 = (0x55, 0) from by decide, execOp_land_eq]
    simp only [pop_fst, pop_snd, push_eq, Nat.cast_one]
    try dsimp only
    rw [if_pos hz]
    refine ⟨_, rfl, ?_, ?_, ?_, he, ?_⟩
    · try dsimp only
      omega
    · try dsimp only
      simp [upd]
    · intro x hx
      try dsimp only
      simp [upd, hx]
    · try dsimp only
      rw [if_neg (by omega), if_neg (by omega)]
      exact hse
  · intro hb hnz
    rw [step_fetch hops vm he hse, hb,
      show VM.decode 0x55 = (0x55, 0) from by decide, execOp_land_eq]
    simp only [pop_fst, pop_snd, push_eq, Nat.cast_one]
    try dsimp only
    rw [if_neg hnz]
    rw [show vm.stack.sp - (1 : Int) - 1 = vm.stack.sp - 2 from by ring]
    refine ⟨_, rfl, ?_, ?_, ?_, he, ?_⟩
    · try dsimp only
      omega
    · try dsimp only
      simp [upd]
    · intro x hx
      try dsimp only
      simp [upd, hx]
    · try dsimp only
      rw [if_neg (by omega), if_neg (by omega), if_neg (by omega)]
      exact hse

end Clover

namespace Clover

/-- Witness for C9 on the concrete state `c9vm` (program `LOr`, stack
`[5, 7]`). -/
theorem C9_lor_land_short_circuit_witness :
    (c9vm.romB (toUInt16 c9vm.pc) = 0x54 →
        c9vm.stack.mem (c9vm.stack.sp - 1) ≠ 0 →
      ∃ vm', VM.step hops0 c9vm = StepOut.next vm'
        ∧ vm'.stack.sp = c9vm.stack.sp
        ∧ vm'.stack.mem (c9vm.stack.sp - 1) = 1
        ∧ (∀ x, x ≠ c9vm.stack.sp - 1 → vm'.stack.mem x = c9vm.stack.mem x)
        ∧ vm'.err = Error.none ∧ vm'.stack.err = Error.none)
    ∧ (c9vm.romB (toUInt16 c9vm.pc) = 0x54 →
        c9vm.stack.mem (c9vm.stack.sp - 1) = 0 →
      ∃ vm', VM.step hops0 c9vm = StepOut.next vm'
        ∧ vm'.stack.sp = c9vm.stack.sp - 1
        ∧ vm'.stack.mem (c9vm.stack.sp - 2)
            = (if c9vm.stack.mem (c9vm.stack.sp - 2) ≠ 0 then 1 else 0)
        ∧ (∀ x, x ≠ c9vm.stack.sp - 2 → vm'.stack.mem x = c9vm.stack.mem x)
        ∧ vm'.err = Error.none ∧ vm'.stack.err = Error.none)
    ∧ (c9vm.romB (toUInt16 c9vm.pc) = 0x55 →
        c9vm.stack.mem (c9vm.stack.sp - 1) = 0 →
      ∃ vm', VM.step hops0 c9vm = StepOut.next vm'
        ∧ vm'.stack.sp = c9vm.stack.sp
        ∧ vm'.stack.mem (c9vm.stack.sp - 1) = 0
        ∧ (∀ x, x ≠ c9vm.stack.sp - 1 → vm'.stack.mem x = c9vm.stack.mem x)
        ∧ vm'.err = Error.none ∧ vm'.stack.err = Error.none)
    ∧ (c9vm.romB (toUInt16 c9vm.pc) = 0x55 →
        c9vm.stack.mem (c9vm.stack.sp - 1) ≠ 0 →
      ∃ vm', VM.step hops0 c9vm = StepOut.next vm'
        ∧ vm'.stack.sp = c9vm.stack.sp - 1
        ∧ vm'.stack.mem (c9vm.stack.sp - 2)
            = (if c9vm.stack.mem (c9vm.stack.sp - 2) ≠ 0 then 1 else 0)
        ∧ (∀ x, x ≠ c9vm.stack.sp - 2 → vm'.stack.mem x = c9vm.stack.mem x)
        ∧ vm'.err = Error.none ∧ vm'.stack.err = Error.none) :=
  C9_lor_land_short_circuit hops0 c9vm (by decide) (by decide) (by decide)
    (by decide)

/-- C10: for every store through an address whose region is Const — a
`Pop` whose id operand is below `GlobalStart`, or a `PopDeref` whose
popped target word decodes to the ROM constants area — the VM leaves
all of global memory, the entire stack contents, and the error flags
unchanged: the store is silently discarded and no runtime error is
raised. -/
theorem C10_store_to_const_discarded (hops : HostOps) (vm : VM)
    (he : vm.err = Error.none) (hse : vm.stack.err = Error.none)
    (hsz : 2 ≤ vm.stack.sp) :
    (vm.romB (toUInt16 vm.pc) = 0x15 →
      vm.stack.mem (vm.stack.sp - 2) % 256 < GlobalStart →
      ∃ vm', VM.step hops vm = StepOut.next vm'
        ∧ vm'.global = vm.global
        ∧ vm'.stack.mem = vm.stack.mem
        ∧ vm'.stack.sp = vm.stack.sp - 2
        ∧ vm'.err = Error.none ∧ vm'.stack.err = Error.none)
    ∧ (vm.romB (toUInt16 vm.pc) = 0x11 →
      vm.romB (toUInt16 (vm.pc + 1)) < GlobalStart →
      ∃ vm', VM.step hops vm = StepOut.next vm'
        ∧ vm'.global = vm.global
        ∧ vm'.stack.mem = vm.stack.mem
        ∧ vm'.stack.sp = vm.stack.sp - 1
        ∧ vm'.err = Error.none ∧ vm'.stack.err = Error.none) := by
  constructor
  · intro hb hc
    rw [step_fetch hops vm he hse, hb,
      show VM.decode 0x15 = (0x15, 0) from by decide, execOp_popDeref_eq]
    simp only [pop_fst, pop_snd, Nat.cast_one]
    rw [show vm.stack.sp - (1 : Int) - 1 = vm.stack.sp - 2 from by ring]
    rw [show Address.fromId (vm.stack.mem (vm.stack.sp - 2) % 256)
        = (⟨1, vm.stack.mem (vm.stack.sp - 2) % 256⟩ : Address) from by
      unfold Address.fromId
      rw [if_pos hc]]
    simp only [VM.storeInt]
    refine ⟨_, rfl, rfl, rfl, ?_, he, ?_⟩
    · (try dsimp only) <;> omega
    · (try dsimp only) <;>
        (rw [if_neg (by omega), if_neg (by omega)]; exact hse)
  · intro hb hc
    simp only [VM.romB] at hc
    rw [step_fetch hops vm he hse, hb,
      show VM.decode 0x11 = (0x11, 0) from by decide, execOp_pop_eq]
    simp only [VM.getByte, VM.romB, pop_fst, pop_snd, Nat.cast_one]
    try dsimp only
    rw [show Address.fromId (vm.rom (toUInt16 (vm.pc + 1) % 65536) % 256)
        = (⟨1, vm.rom (toUInt16 (vm.pc + 1) % 65536) % 256⟩ : Address) from by
      unfold Address.fromId
      rw [if_pos hc]]
    simp only [VM.storeInt]
    refine ⟨_, rfl, rfl, rfl, ?_, he, ?_⟩
    · (try dsimp only) <;> omega
    · (try dsimp only) <;> (rw [if_neg (by omega)]; exact hse)

/-- Witness for C10 on the concrete state `c10vm` (program `PopDeref`,
stack `[0x10, 99]`). -/
theorem C10_store_to_const_discarded_witness :
    (c10vm.romB (toUInt16 c10vm.pc) = 0x15 →
      c10vm.stack.mem (c10vm.stack.sp - 2) % 256 < GlobalStart →
      ∃ vm', VM.step hops0 c10vm = StepOut.next vm'
        ∧ vm'.global = c10vm.global
        ∧ vm'.stack.mem = c10vm.stack.mem
        ∧ vm'.stack.sp = c10vm.stack.sp - 2
        ∧ vm'.err = Error.none ∧ vm'.stack.err = Error.none)
    ∧ (c10vm.romB (toUInt16 c10vm.pc) = 0x11 →
      c10vm.romB (toUInt16 (c10vm.pc + 1)) < GlobalStart →
      ∃ vm', VM.step hops0 c10vm = StepOut.next vm'
        ∧ vm'.global = c10vm.global
        ∧ vm'.stack.mem = c10vm.stack.mem
        ∧ vm'.stack.sp = c10vm.stack.sp - 1
        ∧ vm'.err = Error.none ∧ vm'.stack.err = Error.none) :=
  C10_store_to_const_discarded hops0 c10vm (by decide) (by decide) (by decide)

end Clover

namespace Clover

/-- C1 counterexample: on the program `If 0; Push …` with a zero
condition, the VM does not simply skip forward and continue — it
requires the opcode after the skip to be `Else` or `EndIf`, and here it
is `Push`, so the dispatch loop stops with `UnexpectedOpInIf` and
returns -1, where the claim promises an error-free skip with no
`Else`/`EndIf` needed.  (Also, the condition byte 0x3a is below 0x80,
so `If` carries no inline index nibble: the skip distance comes from
the single operand byte alone.) -/
theorem C1_counterexample :
    (VM.step hops0 c1vm).isRet = true
    ∧ (VM.step hops0 c1vm).vm.err = Error.unexpectedOpInIf
    ∧ (VM.step hops0 c1vm).retVal = -1
    ∧ VM.decode 0x3a = (0x3a, 0) := by
  decide

/-- C1 (amended): for every `If` executed by the VM, the condition is
popped and, when it is zero, the pc advances past the body by the 8-bit
unsigned offset held in the single operand byte (measured from the byte
following the operand); the opcode at the landing point must then be
`EndIf` (which is simply stepped over) or `Else` (whose own size byte
is also consumed); any other opcode stops execution with
`UnexpectedOpInIf`.  When the condition is nonzero execution continues
directly after the operand byte. -/
theorem C1_if_skip_requires_else_endif (hops : HostOps) (vm : VM)
    (he : vm.err = Error.none) (hse : vm.stack.err = Error.none)
    (hsp : 1 ≤ vm.stack.sp)
    (hb : vm.romB (toUInt16 vm.pc) = 0x3a) :
    (vm.stack.mem (vm.stack.sp - 1) ≠ 0 →
      ∃ vm', VM.step hops vm = StepOut.next vm'
        ∧ vm'.pc = vm.pc + 2
        ∧ vm'.stack.sp = vm.stack.sp - 1
        ∧ vm'.stack.mem = vm.stack.mem
        ∧ vm'.err = Error.none ∧ vm'.stack.err = Error.none)
    ∧ (vm.stack.mem (vm.stack.sp - 1) = 0 →
       vm.romB (toUInt16 (vm.pc + 2
         + (vm.romB (toUInt16 (vm.pc + 1)) : Int))) = 0x3c →
      ∃ vm', VM.step hops vm = StepOut.next vm'
        ∧ vm'.pc = vm.pc + 3 + (vm.romB (toUInt16 (vm.pc + 1)) : Int)
        ∧ vm'.stack.sp = vm.stack.sp - 1
        ∧ vm'.stack.mem = vm.stack.mem
        ∧ vm'.err = Error.none ∧ vm'.stack.err = Error.none)
    ∧ (vm.stack.mem (vm.stack.sp - 1) = 0 →
       vm.romB (toUInt16 (vm.pc + 2
         + (vm.romB (toUInt16 (vm.pc + 1)) : Int))) = 0x3b →
      ∃ vm', VM.step hops vm = StepOut.next vm'
        ∧ vm'.pc = vm.pc + 4 + (vm.romB (toUInt16 (vm.pc + 1)) : Int)
        ∧ vm'.stack.sp = vm.stack.sp - 1
        ∧ vm'.stack.mem = vm.stack.mem
        ∧ vm'.err = Error.none ∧ vm'.stack.err = Error.none)
    ∧ (vm.stack.mem (vm.stack.sp - 1) = 0 →
       vm.romB (toUInt16 (vm.pc + 2
         + (vm.romB (toUInt16 (vm.pc + 1)) : Int))) ≠ 0x3c →
       vm.romB (toUInt16 (vm.pc + 2
         + (vm.romB (toUInt16 (vm.pc + 1)) : Int))) ≠ 0x3b →
      ∃ vm', VM.step hops vm = StepOut.ret vm' (-1)
        ∧ vm'.err = Error.unexpectedOpInIf) := by
  refine ⟨?_, ?_, ?_, ?_⟩
  · intro hnz
    rw [step_fetch hops vm he hse, hb,
      show VM.decode 0x3a = (0x3a, 0) from by decide, execOp_if_eq]
    simp only [VM.getByte, VM.romB, pop_fst, pop_snd, Nat.cast_one]
    try dsimp only
    rw [if_neg hnz]
    refine ⟨_, rfl, ?_, ?_, rfl, he, ?_⟩
    · (try dsimp only) <;> omega
    · (try dsimp only) <;> omega
    · (try dsimp only) <;> (rw [if_neg (by omega)]; exact hse)
  · intro hz hf
    simp only [VM.romB] at hf
    rw [step_fetch hops vm he hse, hb,
      show VM.decode 0x3a = (0x3a, 0) from by decide, execOp_if_eq]
    simp only [VM.getByte, VM.romB, pop_fst, pop_snd, Nat.cast_one]
    try dsimp only
    rw [if_pos hz]
    rw [show vm.pc + 1 + 1
          + ((vm.rom (toUInt16 (vm.pc + 1) % 65536) % 256 : Nat) : Int)
        = vm.pc + 2
          + ((vm.rom (toUInt16 (vm.pc + 1) % 65536) % 256 : Nat) : Int)
        from by ring]
    rw [if_pos hf]
    refine ⟨_, rfl, ?_, ?_, rfl, he, ?_⟩
    · (try dsimp only) <;> omega
    · (try dsimp only) <;> omega
    · (try dsimp only) <;> (rw [if_neg (by omega)]; exact hse)
  · intro hz hf
    simp only [VM.romB] at hf
    rw [step_fetch hops vm he hse, hb,
      show VM.decode 0x3a = (0x3a, 0) from by decide, execOp_if_eq]
    simp only [VM.getByte, VM.romB, pop_fst, pop_snd, Nat.cast_one]
    try dsimp only
    rw [if_pos hz]
    rw [show vm.pc + 1 + 1
          + ((vm.rom (toUInt16 (vm.pc + 1) % 65536) % 256 : Nat) : Int)
        = vm.pc + 2
          + ((vm.rom (toUInt16 (vm.pc + 1) % 65536) % 256 : Nat) : Int)
        from by ring]
    rw [if_neg (by rw [hf]; decide), if_pos hf]
    refine ⟨_, rfl, ?_, ?_, rfl, he, ?_⟩
    · (try dsimp only) <;> omega
    · (try dsimp only) <;> omega
    · (try dsimp only) <;> (rw [if_neg (by omega)]; exact hse)
  · intro hz hf1 hf2
    simp only [VM.romB] at hf1 hf2
    rw [step_fetch hops vm he hse, hb,
      show VM.decode 0x3a = (0x3a, 0) from by decide, execOp_if_eq]
    simp only [VM.getByte, VM.romB, pop_fst, pop_snd, Nat.cast_one]
    try dsimp only
    rw [if_pos hz]
    rw [show vm.pc + 1 + 1
          + ((vm.rom (toUInt16 (vm.pc + 1) % 65536) % 256 : Nat) : Int)
        = vm.pc + 2
          + ((vm.rom (toUInt16 (vm.pc + 1) % 65536) % 256 : Nat) : Int)
        from by ring]
    rw [if_neg hf1, if_neg hf2]
    exact ⟨_, rfl, rfl⟩

/-- Witness for C1 on the concrete state `c1vm` (program `If 0; Push`,
condition 0): the landing opcode is neither `Else` nor `EndIf`, so the
fourth case fires. -/
theorem C1_if_skip_requires_else_endif_witness :
    (c1vm.stack.mem (c1vm.stack.sp - 1) = 0
      ∧ c1vm.romB (toUInt16 (c1vm.pc + 2
          + (c1vm.romB (toUInt16 (c1vm.pc + 1)) : Int))) ≠ 0x3c
      ∧ c1vm.romB (toUInt16 (c1vm.pc + 2
          + (c1vm.romB (toUInt16 (c1vm.pc + 1)) : Int))) ≠ 0x3b)
    ∧ (∃ vm', VM.step hops0 c1vm = StepOut.ret vm' (-1)
        ∧ vm'.err = Error.unexpectedOpInIf) :=
  ⟨⟨by decide, by decide, by decide⟩,
    (C1_if_skip_requires_else_endif hops0 c1vm (by decide) (by decide)
      (by decide) (by decide)).2.2.2 (by decide) (by decide) (by decide)⟩

/-- C4: the claim says `PushRef` on a frame-relative local bakes the
address into a `LocalAbs` (adding the current `bp`), so a later deref
reaches the same slot across frame changes.  The code
(Interpreter.cpp lines 151-153) pushes the raw id byte instead: on the
program `PushRef 0xC0; Call 4; SetFrame 1,0; Push 0xC0; PushDeref`
the first step pushes `0xC0` — not the `LocalAbs` var 1024 the baking
would produce — and the callee's deref of that value re-resolves it
against the callee's own `bp`, yielding `0xC0` (its own parameter
slot) instead of the caller's local 0 (42), with no error raised. -/
theorem C4_pushref_not_baked :
    ((VM.step hops0 c4vm).vm.stack.mem 1 = 0xC0
      ∧ (Address.mk 4 (c4vm.stack.localToAbs 0)).toVar = 1024
      ∧ (0xC0 : Nat) ≠ 1024)
    ∧ ((VM.runSteps hops0 5 c4vm).vm.stack.mem
          ((VM.runSteps hops0 5 c4vm).vm.stack.sp - 1) = 0xC0
      ∧ (VM.runSteps hops0 5 c4vm).vm.err = Error.none
      ∧ (VM.runSteps hops0 5 c4vm).vm.stack.err = Error.none
      ∧ c4vm.stack.mem 0 = 42
      ∧ (0xC0 : Nat) ≠ 42) := by
  decide

theorem pushIntConstS_byte : ∀ i < 16, 0xb0 ||| (i &&& 0x0f) = 0xb0 + i := by
  decide

theorem findInt_getD (rom32 : List Nat) (z : Int) (hlen : rom32.length < 256) :
    (findInt rom32 z).1.getD (findInt rom32 z).2 0 = toUInt32 z := by
  unfold findInt
  cases hf : rom32.findIdx? (fun v => toUInt32 z = v) with
  | none =>
    simp only
    rw [Nat.mod_eq_of_lt hlen, List.getD_eq_getElem?_getD,
      List.getElem?_append_right (Nat.le_refl _)]
    simp
  | some idx =>
    simp only
    obtain ⟨hlt, hp, -⟩ := List.findIdx?_eq_some_iff_getElem.mp hf
    simp only [decide_eq_true_eq] at hp
    rw [Nat.mod_eq_of_lt (Nat.lt_trans hlt hlen),
      List.getD_eq_getElem?_getD, List.getElem?_eq_getElem hlt]
    simp [hp]

/-- Counterexample to C8 as stated: when the expression's matching type
is `Float`, `bakeExpr` promotes the integer literal and emits a `Push`
of a float-pool constant even for `0 ≤ k ≤ 15` (here `k = 3`, with
`float(3)` having IEEE-754 bits 0x40400000), where the claim demands
`PushIntConstS` with 3 in the index nibble. -/
theorem C8_counterexample :
    (bakeIntRight (fun _ => 1077936128) [] [] 3 CType.float).2 = [0x10, 0]
    ∧ (0 : Int) ≤ 3 ∧ (3 : Int) ≤ 15
    ∧ ([0x10, 0] : List Nat) ≠ [0xb0 ||| (3 &&& 0x0f)] := by
  decide

/-- C8 (amended: restricted to non-`Float` matching types, where the
promotion branch of `bakeExpr` does not fire; `k` ranges over
`int32_t`): literals `0 ≤ k ≤ 15` become `PushIntConstS` with `k` in
the index nibble, literals `16 ≤ k ≤ 255` become `PushIntConst` with a
one-byte immediate, and all other literals become `Push` of a pool
index at which the interned constants pool holds `k` (as `uint32_t`). -/
theorem C8_int_literal_baking (i2fBits : Int → Nat) (rom32 rom8 : List Nat)
    (k : Int) (mt : CType) (hmt : mt ≠ CType.float) (hlen : rom32.length < 256)
    (hlo : -2147483648 ≤ k) (hhi : k < 2147483648) :
    (0 ≤ k → k ≤ 15 →
      bakeIntRight i2fBits rom32 rom8 k mt
        = (rom32, rom8 ++ [0xb0 + toUInt32 k]))
    ∧ (16 ≤ k → k ≤ 255 →
      bakeIntRight i2fBits rom32 rom8 k mt
        = (rom32, rom8 ++ [0x12, toUInt32 k]))
    ∧ ((k < 0 ∨ 255 < k) →
      bakeIntRight i2fBits rom32 rom8 k mt
        = ((findInt rom32 k).1, rom8 ++ [0x10, (findInt rom32 k).2])
      ∧ toInt32 ((findInt rom32 k).1.getD ((findInt rom32 k).2) 0) = k) := by
  refine ⟨?_, ?_, ?_⟩
  · intro hk0 hk15
    have hle : toUInt32 k ≤ 15 := by unfold toUInt32; omega
    unfold bakeIntRight
    rw [if_neg hmt, if_pos hle, pushIntConstS_byte (toUInt32 k) (by omega)]
  · intro hk16 hk255
    have hgt : ¬ toUInt32 k ≤ 15 := by unfold toUInt32; omega
    have hle : toUInt32 k ≤ 255 := by unfold toUInt32; omega
    have hm : toUInt32 k % 256 = toUInt32 k := Nat.mod_eq_of_lt (by omega)
    unfold bakeIntRight
    rw [if_neg hmt, if_neg hgt, if_pos hle, hm]
  · intro hk
    have hgt15 : ¬ toUInt32 k ≤ 15 := by unfold toUInt32; omega
    have hgt255 : ¬ toUInt32 k ≤ 255 := by unfold toUInt32; omega
    have hrt : toInt32 (toUInt32 k) = k := toInt32_toUInt32_roundtrip ⟨hlo, hhi⟩
    unfold bakeIntRight
    rw [if_neg hmt, if_neg hgt15, if_neg hgt255, hrt]
    exact ⟨rfl, by rw [findInt_getD rom32 k hlen, hrt]⟩

theorem getD_append_off (l1 l2 : List Nat) (j : Nat) :
    (l1 ++ l2).getD (l1.length + j) 0 = l2.getD j 0 := by
  rw [List.getD_eq_getElem?_getD,
    List.getElem?_append_right (Nat.le_add_right _ _),
    Nat.add_sub_cancel_left, ← List.getD_eq_getElem?_getD]

theorem getD_append_in (l1 l2 : List Nat) (j : Nat) (h : j < l1.length) :
    (l1 ++ l2).getD j 0 = l1.getD j 0 := by
  rw [List.getD_eq_getElem?_getD, List.getElem?_append_left h,
    ← List.getD_eq_getElem?_getD]

theorem length_word4_flatten (l : List Nat) :
    (l.map word4).flatten.length = 4 * l.length := by
  induction l with
  | nil => rfl
  | cons x xs ih =>
    simp only [List.map_cons, List.flatten_cons, List.length_append, ih,
      List.length_cons, word4, List.length_nil]
    ring

theorem findCmdLoop_table (rom : Nat → Nat) (cmd : Nat)
    (effects : List CmdEntry) :
    ∀ (co : Nat) (acc : Option (Nat × Nat × Nat)) (fuel : Nat),
      (∀ j, j < ((effects.map entryBytes).flatten ++ [0]).length →
        rom (co + j) % 256
          = ((effects.map entryBytes).flatten ++ [0]).getD j 0 % 256) →
      (∀ e ∈ effects, e.cmd % 256 ≠ 0) →
      co + 6 * effects.length + 1 ≤ 65536 →
      effects.length < fuel →
      findCmdLoop rom cmd fuel co acc
        = some ((co + 6 * effects.length + 1) % 65536,
            tableLookup cmd effects acc) := by
  induction effects with
  | nil =>
    intro co acc fuel hsp _ hco hfuel
    obtain ⟨f, rfl⟩ : ∃ f, fuel = f + 1 := ⟨fuel - 1, by omega⟩
    have h0 := hsp 0 (by simp)
    have hz : rom co % 256 = 0 := by simpa using h0
    simp only [findCmdLoop]
    rw [Nat.mod_eq_of_lt (show co < 65536 by omega), hz, if_pos rfl]
    simp [tableLookup]
  | cons e rest ih =>
    intro co acc fuel hsp hnz hco hfuel
    obtain ⟨f, rfl⟩ : ∃ f, fuel = f + 1 := ⟨fuel - 1, by omega⟩
    rw [List.length_cons] at hco hfuel
    have hflat : ((e :: rest).map entryBytes).flatten ++ [0]
        = entryBytes e ++ ((rest.map entryBytes).flatten ++ [0]) := by
      simp [List.append_assoc]
    have hb : ∀ j, j < 6 →
        rom (co + j) % 256 = (entryBytes e).getD j 0 % 256 := by
      intro j hj
      have h := hsp j (by
        rw [hflat, List.length_append,
          show (entryBytes e).length = 6 from rfl]
        omega)
      rwa [hflat, getD_append_in _ _ j (by
        rw [show (entryBytes e).length = 6 from rfl]; omega)] at h
    have hb0 : rom co % 256 = e.cmd % 256 := by
      have h := hb 0 (by omega)
      rw [Nat.add_zero, show (entryBytes e).getD 0 0 = e.cmd % 256 from rfl]
        at h
      omega
    have hb1 : rom (co + 1) % 256 = e.count % 256 := by
      have h := hb 1 (by omega)
      rw [show (entryBytes e).getD 1 0 = e.count % 256 from rfl] at h
      omega
    have hb2 : rom (co + 2) % 256 = e.initAddr % 256 := by
      have h := hb 2 (by omega)
      rw [show (entryBytes e).getD 2 0 = e.initAddr % 256 from rfl] at h
      omega
    have hb3 : rom (co + 3) % 256 = e.initAddr / 256 % 256 := by
      have h := hb 3 (by omega)
      rw [show (entryBytes e).getD 3 0 = e.initAddr / 256 % 256 from rfl] at h
      omega
    have hb4 : rom (co + 4) % 256 = e.loopAddr % 256 := by
      have h := hb 4 (by omega)
      rw [show (entryBytes e).getD 4 0 = e.loopAddr % 256 from rfl] at h
      omega
    have hb5 : rom (co + 5) % 256 = e.loopAddr / 256 % 256 := by
      have h := hb 5 (by omega)
      rw [show (entryBytes e).getD 5 0 = e.loopAddr / 256 % 256 from rfl] at h
      omega
    have h16i : rom16 rom (co + 2) = e.initAddr % 65536 := by
      unfold rom16
      rw [Nat.mod_eq_of_lt (show co + 2 < 65536 by omega),
        show co + 2 + 1 = co + 3 from rfl,
        Nat.mod_eq_of_lt (show co + 3 < 65536 by omega), hb2, hb3,
        lor_byte_eq_add (by omega)]
      omega
    have h16l : rom16 rom (co + 4) = e.loopAddr % 65536 := by
      unfold rom16
      rw [Nat.mod_eq_of_lt (show co + 4 < 65536 by omega),
        show co + 4 + 1 = co + 5 from rfl,
        Nat.mod_eq_of_lt (show co + 5 < 65536 by omega), hb4, hb5,
        lor_byte_eq_add (by omega)]
      omega
    have hsp' : ∀ j, j < ((rest.map entryBytes).flatten ++ [0]).length →
        rom (co + 6 + j) % 256
          = ((rest.map entryBytes).flatten ++ [0]).getD j 0 % 256 := by
      intro j hj
      have h := hsp (6 + j) (by
        rw [hflat, List.length_append,
          show (entryBytes e).length = 6 from rfl]
        omega)
      rw [hflat] at h
      have hoff := getD_append_off (entryBytes e)
        ((rest.map entryBytes).flatten ++ [0]) j
      rw [show (entryBytes e).length = 6 from rfl] at hoff
      rw [hoff] at h
      rw [show co + 6 + j = co + (6 + j) from by ring]
      exact h
    have hnz' : ∀ e' ∈ rest, e'.cmd % 256 ≠ 0 :=
      fun e' he' => hnz e' (List.mem_cons_of_mem _ he')
    simp only [findCmdLoop]
    rw [Nat.mod_eq_of_lt (show co < 65536 by omega), hb0,
      if_neg (hnz e (List.mem_cons_self e rest)),
      Nat.mod_eq_of_lt (show co + 1 < 65536 by omega), hb1, h16i, h16l,
      Nat.mod_eq_of_lt (show co + 6 < 65536 by omega)]
    rw [ih (co + 6) _ f hsp' hnz' (by omega) (by omega)]
    rw [show co + 6 + 6 * rest.length + 1
        = co + 6 * (rest.length + 1) + 1 from by ring]
    rfl

theorem emit_rom_byte4 (rom32 : List Nat) (g s : Nat)
    (effects : List CmdEntry) (rom8 : List Nat) :
    romOf (emitBytes rom32 g s effects rom8) 4 = rom32.length % 256 := by
  unfold emitBytes romOf
  rw [List.append_assoc, List.append_assoc, List.append_assoc,
    List.getD_eq_getElem?_getD, List.getElem?_append_left (by simp)]
  rfl

theorem emit_rom_byte6 (rom32 : List Nat) (g s : Nat)
    (effects : List CmdEntry) (rom8 : List Nat) :
    romOf (emitBytes rom32 g s effects rom8) 6 = s % 256 := by
  unfold emitBytes romOf
  rw [List.append_assoc, List.append_assoc, List.append_assoc,
    List.getD_eq_getElem?_getD, List.getElem?_append_left (by simp)]
  rfl

theorem emit_rom_table (rom32 : List Nat) (g s : Nat)
    (effects : List CmdEntry) (rom8 : List Nat) :
    ∀ j, j < ((effects.map entryBytes).flatten ++ [0]).length →
      romOf (emitBytes rom32 g s effects rom8) (8 + 4 * rom32.length + j) % 256
        = ((effects.map entryBytes).flatten ++ [0]).getD j 0 % 256 := by
  intro j hj
  have hre : emitBytes rom32 g s effects rom8
      = ([97, 114, 108, 121, rom32.length % 256, g % 256, s % 256, 0]
          ++ (rom32.map word4).flatten)
        ++ (((effects.map entryBytes).flatten ++ [0]) ++ rom8) := by
    unfold emitBytes
    simp [List.append_assoc]
  have hlen1 : ([97, 114, 108, 121, rom32.length % 256, g % 256, s % 256, 0]
      ++ (rom32.map word4).flatten).length = 8 + 4 * rom32.length := by
    rw [List.length_append, length_word4_flatten,
      show ([97, 114, 108, 121, rom32.length % 256, g % 256, s % 256,
        0] : List Nat).length = 8 from rfl]
  rw [hre]
  unfold romOf
  rw [show 8 + 4 * rom32.length + j
      = ([97, 114, 108, 121, rom32.length % 256, g % 256, s % 256, 0]
          ++ (rom32.map word4).flatten).length + j from by rw [hlen1],
    getD_append_off, getD_append_in _ _ j hj]

/-- Counterexample to C5 as stated: on the image the repository's own
`emit` produces for a single command "A" (command byte 65, no
parameters), `init` succeeds — its scan matches entries on ONE command
byte over 6-byte entries behind the 8-byte header, finds `SetFrame` at
the init entry and pushes the sentinel `uint32_t(-1)` — while the
7-byte-name lookup over 12-byte entries that the claim describes (on
the 12-byte-header layout it quotes) stops at once on a zero byte and
finds no command at all. -/
theorem C5_counterexample :
    (initPrep (romOf c5img) 65 (fun _ => 0) 0 (fun _ => 0) (fun _ => 0)).map
        (fun p => (p.2, p.1.err, p.1.stack.err, p.1.pc))
      = some (true, Error.none, Error.none, 15)
    ∧ (initPrep (romOf c5img) 65 (fun _ => 0) 0 (fun _ => 0) (fun _ => 0)).map
        (fun p => (p.1.stack.sp, p.1.stack.mem 0, p.1.codeOffset))
      = some (1, 4294967295, 15)
    ∧ findCmdClaim (romOf c5img) c5name = some (13, Option.none) := by
  refine ⟨by decide, by decide, by decide⟩

/-- C5 (amended): `init` reads the 8-byte header (constants size in
byte 4, stack allocation in byte 6) and scans 6-byte command entries —
matched on their single command byte, the last match winning — before
a terminating zero byte.  On any image `emit` produces: with no
matching entry it fails with `CmdNotFound`; with a matching entry
whose parameter count differs from `size` it fails with
`WrongNumberOfArgs`; when the opcode at the init entry (offset by the
code offset, the byte after the table's terminator) is not `SetFrame`
it fails with `ExpectedSetFrame`; and otherwise it allocates the
stack, pushes the sentinel return pc `uint32_t(-1)` and stands ready
to execute at the init entry. -/
theorem C5_init_command_lookup (rom32 : List Nat) (g s : Nat)
    (effects : List CmdEntry) (rom8 : List Nat) (cmd size : Nat)
    (buf : Nat → Nat) (g0 : Nat → Nat) (m0 : Int → Nat)
    (hlen : rom32.length < 256)
    (hnz : ∀ e ∈ effects, e.cmd % 256 ≠ 0)
    (hfit : 8 + 4 * rom32.length + 6 * effects.length + 1 < 65536) :
    (tableLookup (cmd % 256) effects none = none →
      ∃ vm, initPrep (romOf (emitBytes rom32 g s effects rom8)) cmd buf size
            g0 m0
          = some (vm, false) ∧ vm.err = Error.cmdNotFound)
    ∧ (∀ np is lp,
        tableLookup (cmd % 256) effects none = some (np, is, lp) →
        np ≠ size % 256 →
        ∃ vm, initPrep (romOf (emitBytes rom32 g s effects rom8)) cmd buf size
              g0 m0
            = some (vm, false) ∧ vm.err = Error.wrongNumberOfArgs)
    ∧ (∀ np is lp,
        tableLookup (cmd % 256) effects none = some (np, is, lp) →
        np = size % 256 →
        romOf (emitBytes rom32 g s effects rom8)
            ((is + (8 + 4 * rom32.length + 6 * effects.length + 1)) % 65536)
            % 256 ≠ 0x41 →
        ∃ vm, initPrep (romOf (emitBytes rom32 g s effects rom8)) cmd buf size
              g0 m0
            = some (vm, false) ∧ vm.err = Error.expectedSetFrame)
    ∧ (∀ np is lp,
        tableLookup (cmd % 256) effects none = some (np, is, lp) →
        np = size % 256 →
        0 < s % 256 →
        romOf (emitBytes rom32 g s effects rom8)
            ((is + (8 + 4 * rom32.length + 6 * effects.length + 1)) % 65536)
            % 256 = 0x41 →
        ∃ vm, initPrep (romOf (emitBytes rom32 g s effects rom8)) cmd buf size
              g0 m0
            = some (vm, true)
          ∧ vm.err = Error.none
          ∧ vm.stack.err = Error.none
          ∧ vm.pc = (((is + (8 + 4 * rom32.length + 6 * effects.length + 1))
              % 65536 : Nat) : Int)
          ∧ vm.stack.sp = 1
          ∧ vm.stack.mem 0 = 4294967295
          ∧ vm.stack.size = ((s % 256 : Nat) : Int)
          ∧ vm.codeOffset
              = 8 + 4 * rom32.length + 6 * effects.length + 1) := by
  have hc0 : 8 + romOf (emitBytes rom32 g s effects rom8) 4 % 256 * 4
      = 8 + 4 * rom32.length := by
    rw [emit_rom_byte4 rom32 g s effects rom8]
    omega
  have hscan : findCmdLoop (romOf (emitBytes rom32 g s effects rom8))
      (cmd % 256) 65536
      (8 + romOf (emitBytes rom32 g s effects rom8) 4 % 256 * 4) none
      = some ((8 + 4 * rom32.length + 6 * effects.length + 1) % 65536,
          tableLookup (cmd % 256) effects none) := by
    rw [hc0]
    exact findCmdLoop_table (romOf (emitBytes rom32 g s effects rom8))
      (cmd % 256) effects (8 + 4 * rom32.length) none 65536
      (emit_rom_table rom32 g s effects rom8) hnz (by omega) (by omega)
  have hA : (8 + 4 * rom32.length + 6 * effects.length + 1) % 65536
      = 8 + 4 * rom32.length + 6 * effects.length + 1 :=
    Nat.mod_eq_of_lt hfit
  refine ⟨?_, ?_, ?_, ?_⟩
  · intro htl
    simp only [initPrep]
    rw [hscan, htl]
    exact ⟨_, rfl, rfl⟩
  · intro np is lp htl hnp
    simp only [initPrep]
    rw [hscan, htl]
    dsimp only
    rw [if_pos hnp]
    exact ⟨_, rfl, rfl⟩
  · intro np is lp htl hnp hsf
    simp only [initPrep]
    rw [hscan, htl]
    dsimp only
    rw [if_neg (not_not_intro hnp)]
    simp only [VM.romB]
    try dsimp only
    rw [hA]
    simp only [show (is + (8 + 4 * rom32.length + 6 * effects.length + 1))
          % 65536 % 65536
        = (is + (8 + 4 * rom32.length + 6 * effects.length + 1)) % 65536
        from by omega]
    rw [if_pos hsf]
    exact ⟨_, rfl, rfl⟩
  · intro np is lp htl hnp hs hsf
    simp only [initPrep]
    rw [hscan, htl]
    dsimp only
    rw [if_neg (not_not_intro hnp)]
    simp only [VM.romB]
    try dsimp only
    rw [hA]
    simp only [show (is + (8 + 4 * rom32.length + 6 * effects.length + 1))
          % 65536 % 65536
        = (is + (8 + 4 * rom32.length + 6 * effects.length + 1)) % 65536
        from by omega]
    rw [if_neg (not_not_intro hsf)]
    rw [emit_rom_byte6 rom32 g s effects rom8]
    simp only [Stack.push, Stack.ensurePush]
    try dsimp only
    rw [if_neg (show ¬ (((s % 256 % 256 : Nat) : Int) ≤ 0) from by
      rw [show s % 256 % 256 = s % 256 from by omega]
      omega)]
    refine ⟨_, rfl, rfl, rfl, rfl, ?_, ?_, ?_, rfl⟩
    · dsimp only
      decide
    · dsimp only [upd]
      rw [if_pos rfl]
    · dsimp only
      exact congrArg (fun n : Nat => (n : Int)) (by omega)

/-- Witness for C5 on the one-command image `emit` produces for the
command byte 65 with no constants, no parameters and stack allocation
4: `init` succeeds, pushing the sentinel and leaving the pc at the
`SetFrame` of the init entry. -/
theorem C5_init_command_lookup_witness :
    (([] : List Nat).length < 256
      ∧ (∀ e ∈ [CmdEntry.mk 65 0 0 0], e.cmd % 256 ≠ 0)
      ∧ 8 + 4 * ([] : List Nat).length
          + 6 * [CmdEntry.mk 65 0 0 0].length + 1 < 65536
      ∧ tableLookup (65 % 256) [CmdEntry.mk 65 0 0 0] none = some (0, 0, 0)
      ∧ (0 : Nat) = 0 % 256
      ∧ 0 < 4 % 256
      ∧ romOf (emitBytes [] 0 4 [CmdEntry.mk 65 0 0 0] [0x41, 0x00])
          ((0 + (8 + 4 * ([] : List Nat).length
            + 6 * [CmdEntry.mk 65 0 0 0].length + 1)) % 65536) % 256 = 0x41)
    ∧ (∃ vm, initPrep (romOf (emitBytes [] 0 4 [CmdEntry.mk 65 0 0 0]
            [0x41, 0x00])) 65 (fun _ => 0) 0 (fun _ => 0) (fun _ => 0)
          = some (vm, true)
        ∧ vm.err = Error.none
        ∧ vm.stack.err = Error.none
        ∧ vm.pc = (((0 + (8 + 4 * ([] : List Nat).length
            + 6 * [CmdEntry.mk 65 0 0 0].length + 1)) % 65536 : Nat) : Int)
        ∧ vm.stack.sp = 1
        ∧ vm.stack.mem 0 = 4294967295
        ∧ vm.stack.size = ((4 % 256 : Nat) : Int)
        ∧ vm.codeOffset = 8 + 4 * ([] : List Nat).length
            + 6 * [CmdEntry.mk 65 0 0 0].length + 1) :=
  ⟨⟨by decide, by decide, by decide, by decide, by decide, by decide,
      by decide⟩,
    (C5_init_command_lookup [] 0 4 [CmdEntry.mk 65 0 0 0] [0x41, 0x00] 65 0
        (fun _ => 0) (fun _ => 0) (fun _ => 0) (by decide) (by decide)
        (by decide)).2.2.2 0 0 0 (by decide) (by decide) (by decide)
      (by decide)⟩

/-- Witness for C8 at the literal `k = 5` with matching type `Int` on
empty pools: a single `PushIntConstS` byte is emitted. -/
theorem C8_int_literal_baking_witness :
    ((0 : Int) ≤ 5 ∧ (5 : Int) ≤ 15 ∧ CType.int ≠ CType.float
      ∧ ([] : List Nat).length < 256
      ∧ (-2147483648 : Int) ≤ 5 ∧ (5 : Int) < 2147483648)
    ∧ bakeIntRight (fun _ => 0) [] [] 5 CType.int
        = ([], [] ++ [0xb0 + toUInt32 5]) :=
  ⟨⟨by decide, by decide, by decide, by decide, by decide, by decide⟩,
    (C8_int_literal_baking (fun _ => 0) [] [] 5 CType.int (by decide) (by decide)
      (by decide) (by decide)).1 (by decide) (by decide)⟩

end Clover
